import Mathlib

/-!
Verification of the dex-naija-whot backend's session/tournament core.

The JavaScript server (entry file plus `src/utils/tournamentManager.js`) is
embedded shallowly: each socket handler and each `TournamentManager` method
becomes a pure Lean function from the relevant state (the `rooms` array, the
`tournaments` map, a supply of random session codes) to the new state plus a
list of observable effects (socket emissions, XP persistence calls, scheduled
cleanups).  JavaScript's distinction between `null`, `undefined` and a present
object — which the winner bookkeeping of `tournamentManager.js` depends on —
is kept by the three-valued `Slot` type.
-/

set_option linter.unusedVariables false

namespace Whot

/-- A card as relayed between clients.  The rule engine is client-side; the
server only stores and mirrors card lists, so the payload is opaque data. -/
structure Card where
  shape : String
  number : Nat
deriving DecidableEq, Repr

/-- The turn indicator carried in a game state (`whoIsToPlay`), `"user"` or
`"opponent"` in the source. -/
inductive Turn where
  | user
  | opponent
deriving DecidableEq, Repr

/-- A session seat, `"one"` or `"two"` in the source (`player` field). -/
inductive Seat where
  | one
  | two
deriving DecidableEq, Repr

def Turn.flip : Turn → Turn
  | .user => .opponent
  | .opponent => .user

def Seat.flip : Seat → Seat
  | .one => .two
  | .two => .one

/-- The game state object a client submits and the server stores
(`playerOneState` in the source): the fields built in the `join_room` handler
when a room is created. -/
structure GameState where
  deck : List Card
  userCards : List Card
  usedCards : List Card
  opponentCards : List Card
  activeCard : Card
  whoIsToPlay : Turn
  infoText : String
  infoShown : Bool
  stateHasBeenInitialized : Bool
  player : Seat
deriving DecidableEq, Repr

/-- Modelled from the spec: the module `utils/functions/reverseState` is
required by the server but its file is not part of the repository snapshot
under src/.  Spec §4.1: "a pure, side-effect-free transform produces seat
two's mirrored view on demand (swap *my cards* and *opponent cards* fields,
invert turn indicator)"; the seat marker carried in the state is mirrored
with the view (the handlers rely on `player` saying which orientation a
state is in).  All other fields are left as they are. -/
def reverseState (s : GameState) : GameState :=
  { s with
    userCards := s.opponentCards
    opponentCards := s.userCards
    whoIsToPlay := s.whoIsToPlay.flip
    player := s.player.flip }

/-- A JavaScript value slot distinguishing `null`, `undefined` and a present
object: `reportMatchResult` writes the result of `Array.prototype.find`
(which is `undefined` on a miss) into a `winner` field initialised to
`null`; `advanceRound` then tells the two apart with `!== null` while
`reportMatchResult` and `notifyMatchReady` conflate them by truthiness. -/
inductive Slot (α : Type) where
  | null
  | undef
  | val (a : α)
deriving DecidableEq, Repr

instance : Inhabited (Slot α) := ⟨Slot.null⟩

/-- JavaScript truthiness of a `Slot`: only a present object is truthy. -/
def Slot.truthy : Slot α → Bool
  | .val _ => true
  | _ => false

/-- The `!== null` test used by `advanceRound`: `undefined` passes it. -/
def Slot.isNotNull : Slot α → Bool
  | .null => false
  | _ => true

/-- Read a present object out of a slot (JavaScript would throw on
`null`/`undefined`; the call sites only reach this behind a truthiness
check, so the default is never observed there). -/
def Slot.getD (d : α) : Slot α → α
  | .val a => a
  | _ => d

/-- JavaScript array indexing on a plain list: out-of-range access yields
`undefined`. -/
def jsIndex (l : List α) (i : Nat) : Slot α :=
  match l.get? i with
  | some a => .val a
  | none => Slot.undef

/-- JavaScript array indexing on a list whose elements are already slot
values (the `winners` array can hold `undefined` entries): an in-range
element is itself, out-of-range is `undefined`. -/
def jsIndexS (l : List (Slot α)) (i : Nat) : Slot α :=
  match l.get? i with
  | some w => w
  | none => Slot.undef

/-- JavaScript truthiness of a possibly-absent string field: absent
(`undefined`) and the empty string are both falsy. -/
def strTruthy : Option String → Bool
  | some s => s != ""
  | none => false

/-- A player object as stored by `TournamentManager`
(`{ storedId, socketId, name }`). -/
structure TPlayer where
  storedId : String
  socketId : String
  name : String
deriving DecidableEq, Repr

instance : Inhabited TPlayer := ⟨⟨"", "", ""⟩⟩

/-- A bracket match object (`{id, p1, p2, winner, round}` plus the lazily
added `roomCode`).  `p1`/`p2`/`winner` are slots: `p2` is explicitly `null`
for a bye, an out-of-range read makes `p1` `undefined`, and `winner` starts
`null` and can be written `undefined` by a failed lookup. -/
structure TMatch where
  id : String
  p1 : Slot TPlayer
  p2 : Slot TPlayer
  winner : Slot TPlayer
  round : Nat
  roomCode : Option String
deriving DecidableEq, Repr

/-- Tournament lifecycle status, the `status` string of the source. -/
inductive TStatus where
  | waiting
  | active
  | completed
deriving DecidableEq, Repr

/-- A tournament object as created by `createTournament`. -/
structure Tournament where
  id : String
  name : String
  size : Nat
  players : List TPlayer
  status : TStatus
  round : Nat
  «matches» : List TMatch
  winner : Slot TPlayer
deriving DecidableEq, Repr

/-- A chat message entry (`{senderId, text, status}`; the id and timestamp
are wall-clock values outside the model). -/
structure Msg where
  senderId : String
  text : String
  status : String
deriving DecidableEq, Repr

/-- A participant record of a game room (`{storedId, socketId, player}`). -/
structure RoomPlayer where
  storedId : String
  socketId : String
  seat : Seat
deriving DecidableEq, Repr

instance : Inhabited RoomPlayer := ⟨⟨"", "", Seat.one⟩⟩

/-- A game room of the `rooms` array, with the tournament metadata the
current server file attaches on creation (`matchStartedAt` is a wall-clock
value outside the model; no modelled behaviour reads it). -/
structure Room where
  room_id : String
  isTournament : Bool
  tournamentId : Option String
  matchId : Option String
  messages : List Msg
  players : List RoomPlayer
  playerOneState : GameState
deriving DecidableEq, Repr

/-- Observable effects of a handler: socket emissions, fire-and-forget
persistence calls, and scheduled delayed deletions (`setTimeout`). -/
inductive Effect where
  | tournamentUpdate (tid : String)
  | tournamentsList
  | scheduleCleanup (tid : String)
  | scheduleRoomCleanup (roomId : String)
  | matchReady (toSocket : String) (roomId : String) (matchId : String)
      (opponent : String) (tid : String)
  | matchOver (roomId : String) (winnerStoredId : String)
  | xpUpdate (address : String) (xp : Nat) (isWin : Bool)
  | dispatchInit (toSocket : String) (st : GameState)
  | dispatchUpdate (toSockets : List String) (p1State : GameState) (p2State : GameState)
  | errorTo (toSocket : String) (msg : String)
  | chatHistory (toSocket : String) (msgs : List Msg)
  | confirmOnline (roomId : String) (exceptSocket : String)
  | opponentOnline (toSocket : String) (online : Bool)
deriving DecidableEq, Repr

/-- The `{ success, message }` result object of the tournament join and
reconnect operations. -/
structure JoinOutcome where
  success : Bool
  message : Option String
deriving DecidableEq, Repr

/-! ## TournamentManager (src/src/utils/tournamentManager.js)

Randomness (`Math.random().toString(36).substring(2, 6).toUpperCase()`) is
outside the model: the session-code generator is passed in as a stream
`gen : Nat → String` of codes consumed left to right, with `ctr` the next
unused position.  Each method that can allocate codes returns the advanced
counter alongside the new tournament value and its emissions. -/

/-- The match-id scheme of the source:
`` `${tournament.id}_r${round}_m${i / 2}` `` with `i / 2` the pair index. -/
def mkId (tid : String) (r j : Nat) : String :=
  tid ++ "_r" ++ toString r ++ "_m" ++ toString j

/-- `createTournament(id, size, name)`. -/
def createTournament (id : String) (size : Nat) (name : String) : Tournament :=
  { id := id
    name := name
    size := size
    players := []
    status := .waiting
    round := 1
    «matches» := []
    winner := .null }

/-- The body of `notifyMatchReady`'s `forEach` over `tournament.matches`,
written as left-to-right recursion: a match of the current round whose
`winner` is falsy and whose both seats are truthy gets a session code if it
has none (JS truthiness: a missing or empty `roomCode` is regenerated) and a
`tournament_match_ready` emission to each seat's current socket; every other
match is left untouched. -/
def notifyGo (gen : Nat → String) (rnd : Nat) (tid : String) :
    List TMatch → Nat → List TMatch × Nat × List Effect
  | [], c => ([], c, [])
  | m :: ms, c =>
    if m.round == rnd && !m.winner.truthy && m.p1.truthy && m.p2.truthy then
      let code := if strTruthy m.roomCode then m.roomCode.getD "" else gen c
      let c1 := if strTruthy m.roomCode then c else c + 1
      let m' := { m with roomCode := some code }
      let rest := notifyGo gen rnd tid ms c1
      (m' :: rest.1, rest.2.1,
        Effect.matchReady (m'.p1.getD default).socketId code m'.id
            (m'.p2.getD default).name tid ::
          Effect.matchReady (m'.p2.getD default).socketId code m'.id
            (m'.p1.getD default).name tid :: rest.2.2)
    else
      let rest := notifyGo gen rnd tid ms c
      (m :: rest.1, rest.2.1, rest.2.2)

/-- `notifyMatchReady(tournament)`. -/
def notifyMatchReady (gen : Nat → String) (ctr : Nat) (t : Tournament) :
    Tournament × Nat × List Effect :=
  let r := notifyGo gen t.round t.id t.matches ctr
  ({ t with «matches» := r.1 }, r.2.1, r.2.2)

/-- `generateMatches(tournament)`: round-1 pairing in join order, `(0,1),
(2,3), …`.  The loop bound is `tournament.size` (not the player count), so
`p1` can be an out-of-range `undefined` and an odd tail leaves `p2` `null`. -/
def generateMatches (t : Tournament) : Tournament :=
  if t.round == 1 then
    { t with «matches» := t.matches ++ (List.range ((t.size + 1) / 2)).map (fun j =>
        { id := mkId t.id 1 j
          p1 := jsIndex t.players (2 * j)
          p2 := if 2 * j + 1 < t.players.length then jsIndex t.players (2 * j + 1) else .null
          winner := .null
          round := 1
          roomCode := none }) }
  else t

/-- `advanceRound(tournament)`.  The source's final-round test
`tournament.round >= Math.log2(tournament.size)` compares an integer round
with a real logarithm; over naturals it is exactly `size ≤ 2 ^ round`, the
form used here. -/
def advanceRound (gen : Nat → String) (ctr : Nat) (t : Tournament) :
    Tournament × Nat × List Effect :=
  let currentRoundMatches := t.matches.filter (fun m => m.round == t.round)
  let allFinished := currentRoundMatches.all (fun m => m.winner.isNotNull)
  if !allFinished then
    (t, ctr, [Effect.tournamentUpdate t.id])
  else
    let winners := (currentRoundMatches.map (fun m => m.winner)).filter
      (fun w => w.isNotNull)
    if winners.length == 1 && t.size ≤ 2 ^ t.round then
      ({ t with status := .completed, winner := winners.headI }, ctr,
        [Effect.tournamentUpdate t.id, Effect.scheduleCleanup t.id])
    else
      let newMatches := (List.range ((winners.length + 1) / 2)).map (fun j =>
        { id := mkId t.id (t.round + 1) j
          p1 := jsIndexS winners (2 * j)
          p2 := if 2 * j + 1 < winners.length then jsIndexS winners (2 * j + 1) else .null
          winner := .null
          round := t.round + 1
          roomCode := none })
      let t' := { t with round := t.round + 1, «matches» := t.matches ++ newMatches }
      let r := notifyMatchReady gen ctr t'
      (r.1, r.2.1, Effect.tournamentUpdate t.id :: r.2.2)

/-- `startTournament(tournamentId)` on a found tournament: mark active,
generate round-1 matches, broadcast, notify. -/
def startTournament (gen : Nat → String) (ctr : Nat) (t : Tournament) :
    Tournament × Nat × List Effect :=
  let t1 := generateMatches { t with status := .active }
  let r := notifyMatchReady gen ctr t1
  (r.1, r.2.1, Effect.tournamentUpdate t.id :: r.2.2)

/-- The in-place rebinding `if (m.p1 && m.p1.storedId === sid) m.p1 = up`
applied by `reconnectTournament` to each slot of each match. -/
def rebindSlot (sid : String) (up : TPlayer) : Slot TPlayer → Slot TPlayer
  | .val p => if p.storedId == sid then .val up else .val p
  | w => w

/-- `reconnectTournament(tournamentId, player)` on a found tournament. -/
def reconnectTournament (t : Tournament) (player : TPlayer) :
    Tournament × List Effect × JoinOutcome :=
  match t.players.find? (fun p => p.storedId == player.storedId) with
  | some existingPlayer =>
    let updatedPlayer := { existingPlayer with socketId := player.socketId }
    let t' := { t with
      players := t.players.map (fun p =>
        if p.storedId == player.storedId then updatedPlayer else p)
      «matches» := t.matches.map (fun m =>
        { m with
          p1 := rebindSlot player.storedId updatedPlayer m.p1
          p2 := rebindSlot player.storedId updatedPlayer m.p2
          winner := rebindSlot player.storedId updatedPlayer m.winner }) }
    (t', [Effect.tournamentUpdate t.id], ⟨true, none⟩)
  | none => (t, [], ⟨false, some "Player not a participant"⟩)

/-- `joinTournament(tournamentId, player)` on a found tournament: an already
present `storedId` is routed to `reconnectTournament`; otherwise status and
capacity are checked, the player appended, an update broadcast, and the
tournament started when it just filled. -/
def joinTournament (gen : Nat → String) (ctr : Nat) (t : Tournament)
    (player : TPlayer) : Tournament × Nat × List Effect × JoinOutcome :=
  if t.players.any (fun p => p.storedId == player.storedId) then
    let r := reconnectTournament t player
    (r.1, ctr, r.2.1, r.2.2)
  else if t.status ≠ TStatus.waiting then
    (t, ctr, [], ⟨false, some "Tournament already started"⟩)
  else if t.players.length ≥ t.size then
    (t, ctr, [], ⟨false, some "Tournament full"⟩)
  else
    let t1 := { t with players := t.players ++ [player] }
    if t1.players.length == t1.size then
      let r := startTournament gen ctr t1
      (r.1, r.2.1, Effect.tournamentUpdate t.id :: r.2.2, ⟨true, none⟩)
    else
      (t1, ctr, [Effect.tournamentUpdate t.id], ⟨true, none⟩)

/-- The in-place write `match.winner = winner` on the first match found by
`tournament.matches.find(m => m.id === matchId)`. -/
def setWinnerFirst (mid : String) (w : Slot TPlayer) : List TMatch → List TMatch
  | [] => []
  | m :: ms =>
    if m.id == mid then { m with winner := w } :: ms
    else m :: setWinnerFirst mid w ms

/-- `reportMatchResult(tournamentId, matchId, winnerStoredId)` on a found
tournament: silently returns if the match already has a truthy winner;
otherwise writes the player lookup's result (possibly `undefined`) as the
winner and advances. -/
def reportMatchResult (gen : Nat → String) (ctr : Nat) (t : Tournament)
    (matchId winnerStoredId : String) : Tournament × Nat × List Effect :=
  match t.matches.find? (fun m => m.id == matchId) with
  | none => (t, ctr, [])
  | some m =>
    if m.winner.truthy then (t, ctr, [])
    else
      let winner : Slot TPlayer :=
        match t.players.find? (fun p => p.storedId == winnerStoredId) with
        | some p => .val p
        | none => Slot.undef
      advanceRound gen ctr { t with «matches» := setWinnerFirst matchId winner t.matches }

/-- `requestMatchInfo(socket, tournamentId, matchId)` on a found tournament:
re-delivers the stored `roomCode` to the requesting socket when one is
already allocated, with the opponent name resolved against the requester's
socket; otherwise falls back to `notifyMatchReady`.  (JS reads
`match.p1.socketId`, which would throw on a seatless match; the call sites
only reach this for paired matches, where the slot defaults below are never
observed.) -/
def requestMatchInfo (gen : Nat → String) (ctr : Nat) (socketId : String)
    (t : Tournament) (matchId : String) : Tournament × Nat × List Effect :=
  match t.matches.find? (fun m => m.id == matchId) with
  | none => (t, ctr, [])
  | some m =>
    if strTruthy m.roomCode then
      let opp := if (m.p1.getD default).socketId == socketId
        then (m.p2.getD default).name else (m.p1.getD default).name
      (t, ctr, [Effect.matchReady socketId (m.roomCode.getD "") m.id opp t.id])
    else
      notifyMatchReady gen ctr t

/-! ## The tournaments map (`this.tournaments`) -/

/-- The manager's `Map` of tournaments, as an association list keyed by id
(a `Map` holds each key once). -/
abbrev TMap := List (String × Tournament)

def mapGet (ts : TMap) (tid : String) : Option Tournament :=
  (ts.find? (fun e => e.1 == tid)).map (fun e => e.2)

/-- In-place mutation of the stored tournament object: the binding for
`tid` is rewritten. -/
def mapSet (ts : TMap) (tid : String) (t : Tournament) : TMap :=
  ts.map (fun e => if e.1 == tid then (e.1, t) else e)

/-- `reportMatchResult` at the map level: `this.tournaments.get(tournamentId)`
missing means a silent return. -/
def reportMatchResultM (gen : Nat → String) (ctr : Nat) (ts : TMap)
    (tid matchId winnerStoredId : String) : TMap × Nat × List Effect :=
  match mapGet ts tid with
  | none => (ts, ctr, [])
  | some t =>
    let r := reportMatchResult gen ctr t matchId winnerStoredId
    (mapSet ts tid r.1, r.2.1, r.2.2)

/-! ## Socket handlers of the current server file -/

/-- The server's whole mutable state: the `rooms` array, the tournament
map, and the position of the code stream. -/
structure ServerState where
  rooms : List Room
  tournaments : TMap
  ctr : Nat
deriving DecidableEq, Repr

/-- The draw produced by `initializeDeck()` (module
`utils/functions/initializeDeck`, randomness outside the model, supplied as
an argument to the join handler). -/
structure InitDeck where
  deck : List Card
  userCards : List Card
  usedCards : List Card
  opponentCards : List Card
  activeCard : Card
deriving DecidableEq, Repr

/-- The `playerOneState` object built in `join_room` when a room is created. -/
def freshPlayerOneState (d : InitDeck) : GameState :=
  { deck := d.deck
    userCards := d.userCards
    usedCards := d.usedCards
    opponentCards := d.opponentCards
    activeCard := d.activeCard
    whoIsToPlay := .user
    infoText := "It\x27s your turn to make a move now"
    infoShown := true
    stateHasBeenInitialized := true
    player := .one }

def invalidLinkMsg : String :=
  "Sorry! Seems like this game link is invalid. Just go back and start your own game 🙏🏾."

def roomFullMsg : String :=
  "Sorry! There are already two players on this game, just go back and start your own game 🙏🏾."

/-- The destructured `join_room` payload
`{ room_id, storedId, isTournament, matchId, tournamentId }`; `room_id` is
optional because the handler guards with `room_id?.length !== 4`. -/
structure JoinRoomPayload where
  room_id : Option String
  storedId : String
  isTournament : Bool
  matchId : Option String
  tournamentId : Option String
deriving DecidableEq, Repr

/-- The `join_room` handler: guard the 4-character code, then (a) rebind the
sole occupant on a same-`storedId` rejoin, (b) seat a second `storedId` as
seat two, (c) on a full room rebind a recognised `storedId` or reject an
unknown one, (d) create the room with the joiner in seat one.  Effects are
listed in emission order. -/
def handleJoinRoom (d : InitDeck) (rooms : List Room) (sock : String)
    (p : JoinRoomPayload) : List Room × List Effect :=
  if (p.room_id.map String.length) ≠ some 4 then
    (rooms, [Effect.errorTo sock invalidLinkMsg])
  else
    let rid := p.room_id.getD ""
    match rooms.find? (fun r => r.room_id == rid) with
    | some currentRoom =>
      match currentRoom.players with
      | [p0] =>
        if p0.storedId == p.storedId then
          (rooms.map (fun r => if r.room_id == rid then
              { r with players := [{ storedId := p.storedId, socketId := sock, seat := .one }] }
            else r),
           [Effect.dispatchInit sock currentRoom.playerOneState])
        else
          (rooms.map (fun r => if r.room_id == rid then
              { r with players := r.players ++ [{ storedId := p.storedId, socketId := sock, seat := .two }] }
            else r),
           [Effect.dispatchInit sock (reverseState currentRoom.playerOneState),
            Effect.confirmOnline rid sock,
            Effect.opponentOnline p0.socketId true,
            Effect.chatHistory sock currentRoom.messages])
      | ps =>
        match ps.find? (fun q => q.storedId == p.storedId) with
        | some currentPlayer =>
          (rooms.map (fun r => if r.room_id == rid then
              { r with players := r.players.map (fun q =>
                  if q.storedId == p.storedId then
                    { storedId := p.storedId, socketId := sock, seat := currentPlayer.seat }
                  else q) }
            else r),
           [Effect.dispatchInit sock (if currentPlayer.seat == Seat.one
              then currentRoom.playerOneState else reverseState currentRoom.playerOneState),
            Effect.opponentOnline
              ((ps.find? (fun q => q.storedId != p.storedId)).getD default).socketId true,
            Effect.confirmOnline rid sock,
            Effect.chatHistory sock currentRoom.messages])
        | none => (rooms, [Effect.errorTo sock roomFullMsg])
    | none =>
      let st := freshPlayerOneState d
      (rooms ++ [{ room_id := rid
                   isTournament := p.isTournament
                   tournamentId := if strTruthy p.tournamentId then p.tournamentId else none
                   matchId := if strTruthy p.matchId then p.matchId else none
                   messages := []
                   players := [{ storedId := p.storedId, socketId := sock, seat := .one }]
                   playerOneState := st }],
       [Effect.dispatchInit sock st])

/-- The sockets currently subscribed to a room's topic: each participant's
live connection (each called `socket.join(room_id)` on joining). -/
def roomSockets (room : Room) : List String :=
  room.players.map (fun q => q.socketId)

/-- The `sendUpdatedState` handler of the current server file: the submitted
state is stored re-oriented to seat one, and the update is relayed with
`socket.to(room_id)`, which delivers to every subscriber of the room except
the sending socket. -/
def handleSendUpdatedState (rooms : List Room) (sock : String)
    (updatedState : GameState) (rid : String) : List Room × List Effect :=
  match rooms.find? (fun r => r.room_id == rid) with
  | none => (rooms, [])
  | some room =>
    let canon := if updatedState.player == Seat.one then updatedState
      else reverseState updatedState
    (rooms.map (fun r => if r.room_id == rid then { r with playerOneState := canon } else r),
     [Effect.dispatchUpdate ((roomSockets room).filter (fun s => s != sock))
        canon (reverseState canon)])

/-- The `sendUpdatedState` handler of `index.js`: the same state update, but
the relay uses `io.to(room_id)`, which delivers to every subscriber of the
room — the sender's own socket included. -/
def handleSendUpdatedState_index (rooms : List Room) (sock : String)
    (updatedState : GameState) (rid : String) : List Room × List Effect :=
  match rooms.find? (fun r => r.room_id == rid) with
  | none => (rooms, [])
  | some room =>
    let canon := if updatedState.player == Seat.one then updatedState
      else reverseState updatedState
    (rooms.map (fun r => if r.room_id == rid then { r with playerOneState := canon } else r),
     [Effect.dispatchUpdate (roomSockets room) canon (reverseState canon)])

/-- The `game_over` payload: a bare room id (old form) or an object whose
`winner` field may carry any string (only `"user"` and `"opponent"` are
recognised). -/
inductive GameOverData where
  | str (room_id : String)
  | obj (room_id : String) (winner : Option String)
deriving DecidableEq, Repr

def GameOverData.roomId : GameOverData → String
  | .str s => s
  | .obj r _ => r

/-- The `game_over` handler of the current server file.  For a tournament
room it identifies the reporter by `socket.id` among the room's players (not
by any payload field); an unmatched reporter, or an unresolvable relative
claim, silently skips the arbitration block.  The 1-second delayed removal
of the room is the trailing `scheduleRoomCleanup` effect. -/
def handleGameOver (gen : Nat → String) (s : ServerState) (sock : String)
    (data : GameOverData) : ServerState × List Effect :=
  let room_id := data.roomId
  let winnerInfo : Option (Option String) :=
    match data with
    | .str _ => none
    | .obj _ w => some w
  let main : ServerState × List Effect :=
    match s.rooms.find? (fun r => r.room_id == room_id), winnerInfo with
    | some room, some winnerK =>
      if room.isTournament && strTruthy room.tournamentId && strTruthy room.matchId then
        match room.players.find? (fun q => q.socketId == sock) with
        | some reporter =>
          let winnerStoredId : Option String :=
            if winnerK == some "user" then some reporter.storedId
            else if winnerK == some "opponent" then
              match room.players.find? (fun q => q.storedId != reporter.storedId) with
              | some other => some other.storedId
              | none => none
            else none
          match winnerStoredId with
          | some wid =>
            let r := reportMatchResultM gen s.ctr s.tournaments
              (room.tournamentId.getD "") (room.matchId.getD "") wid
            let loserXP : List Effect :=
              match room.players.find? (fun q => q.storedId != wid) with
              | some loser => [Effect.xpUpdate loser.storedId 0 false]
              | none => []
            ({ s with tournaments := r.1, ctr := r.2.1 },
             r.2.2 ++ Effect.xpUpdate wid 10 true :: loserXP ++ [Effect.matchOver room_id wid])
          | none => (s, [])
        | none => (s, [])
      else (s, [])
    | _, _ => (s, [])
  (main.1, main.2 ++ [Effect.scheduleRoomCleanup room_id])

/-- The destructured `tournament_match_win` payload; every field may be
absent or empty (`reporterStoredId` is destructured but never read). -/
structure TMWPayload where
  room_id : String
  tournamentId : Option String
  matchId : Option String
  winnerStoredId : Option String
  winnerType : Option String
deriving DecidableEq, Repr

/-- The `tournament_match_win` handler of the current server file.  Missing
tournament metadata falls back to the room's; a reporter bound to the room
with a truthy `winnerType` has the relative claim resolved against its own
record, but an unbound reporter leaves `finalWinnerId` as the client-supplied
`winnerStoredId`.  When the room is missing while `finalWinnerId` is truthy,
`room.players` is read on `undefined`: the thrown TypeError lands in the
handler's catch after the bracket update and the winner's XP call, so the
loser XP call, the `match_over` broadcast and the delayed cleanup never run
on that path. -/
def handleTournamentMatchWin (gen : Nat → String) (s : ServerState)
    (sock : String) (p : TMWPayload) : ServerState × List Effect :=
  let room? := s.rooms.find? (fun r => r.room_id == p.room_id)
  let ids : Option String × Option String :=
    if !strTruthy p.tournamentId || !strTruthy p.matchId then
      match room? with
      | some room =>
        if room.isTournament then (room.tournamentId, room.matchId)
        else (p.tournamentId, p.matchId)
      | none => (p.tournamentId, p.matchId)
    else (p.tournamentId, p.matchId)
  if strTruthy ids.1 && strTruthy ids.2 then
    let finalWinnerId : Option String :=
      match room? with
      | some room =>
        match room.players.find? (fun q => q.socketId == sock) with
        | some reporter =>
          if strTruthy p.winnerType then
            if p.winnerType == some "user" then some reporter.storedId
            else
              match room.players.find? (fun q => q.storedId != reporter.storedId) with
              | some other => some other.storedId
              | none => p.winnerStoredId
          else p.winnerStoredId
        | none => p.winnerStoredId
      | none => p.winnerStoredId
    if strTruthy finalWinnerId then
      let wid := finalWinnerId.getD ""
      let r := reportMatchResultM gen s.ctr s.tournaments
        (ids.1.getD "") (ids.2.getD "") wid
      match room? with
      | some room =>
        let loserXP : List Effect :=
          match room.players.find? (fun q => q.storedId != wid) with
          | some loser => [Effect.xpUpdate loser.storedId 0 false]
          | none => []
        ({ s with tournaments := r.1, ctr := r.2.1 },
         r.2.2 ++ Effect.xpUpdate wid 10 true :: loserXP
           ++ [Effect.matchOver p.room_id wid, Effect.scheduleRoomCleanup p.room_id])
      | none =>
        ({ s with tournaments := r.1, ctr := r.2.1 },
         r.2.2 ++ [Effect.xpUpdate wid 10 true])
    else (s, [Effect.scheduleRoomCleanup p.room_id])
  else (s, [Effect.scheduleRoomCleanup p.room_id])

/-! ## Derived notions used by the verification -/

/-- The id, round, seats and winner of a match — every field except the
lazily allocated `roomCode`. -/
def MatchCore (m : TMatch) : String × Nat × Slot TPlayer × Slot TPlayer × Slot TPlayer :=
  (m.id, m.round, m.p1, m.p2, m.winner)

/-- Injectivity of the match-id scheme over the rounds and indices a
size-`2 ^ k` bracket can use.  This is a property of decimal numeral
printing (true for every `tid` and `k`), stated as a bounded check so that
it is decidable at concrete inputs. -/
def idFreshB (tid : String) (k : Nat) : Bool :=
  (List.range (k + 1)).all fun i =>
    (List.range (k + 1)).all fun i' =>
      (List.range (2 ^ k)).all fun j =>
        (List.range (2 ^ k)).all fun j' =>
          (mkId tid i j != mkId tid i' j') || (i == i' && j == j')

def IdFresh (tid : String) (k : Nat) : Prop := idFreshB tid k = true

/-- Mid-round bracket invariant of a size-`2 ^ k` tournament: round `r` of
the bracket is in play, `pend` lists the current-round match indices still
without a winner, every decided current-round match carries a participant as
winner, and every match id follows the generation scheme. -/
def MidInv (k r : Nat) (pend : List Nat) (t : Tournament) : Prop :=
  t.status = TStatus.active ∧ t.round = r ∧ 1 ≤ r ∧ r ≤ k ∧ t.size = 2 ^ k ∧
  ∃ done cur,
    t.matches = done ++ cur ∧
    cur.length = 2 ^ (k - r) ∧
    (∀ m ∈ done, m.round < r ∧ ∃ i j, 1 ≤ i ∧ i < r ∧ j < 2 ^ k ∧ m.id = mkId t.id i j) ∧
    (∀ j m, cur.get? j = some m → m.round = r ∧ m.id = mkId t.id r j ∧
      (j ∈ pend → m.winner = Slot.null) ∧
      (j ∉ pend → ∃ p ∈ t.players, m.winner = Slot.val p))

/-- Start-of-round bracket invariant: every current-round match is pending. -/
def Inv (k r : Nat) (t : Tournament) : Prop :=
  MidInv k r (List.range (2 ^ (k - r))) t

/-- One round of result reports applied in sequence: entry `(j, wid)`
reports match `mkId tid r j` with claimed winner `wid` through
`reportMatchResult`, threading the code-stream position. -/
def playRound (gen : Nat → String) (tid : String) (r : Nat)
    (s : Tournament × Nat) (batch : List (Nat × String)) : Tournament × Nat :=
  batch.foldl (fun a jw =>
    let rr := reportMatchResult gen a.2 a.1 (mkId tid r jw.1) jw.2
    (rr.1, rr.2.1)) s

/-- Successive rounds of reports, starting at round `r`. -/
def playRounds (gen : Nat → String) (tid : String) :
    Tournament × Nat → Nat → List (List (Nat × String)) → Tournament × Nat
  | s, _, [] => s
  | s, r, b :: bs => playRounds gen tid (playRound gen tid r s b) (r + 1) bs

/-- A full reporting schedule for rounds `r .. k` of a size-`2 ^ k` bracket:
each round's batch reports each of that round's matches exactly once, in any
order, each with a claimed winner that names some tournament participant
("every match eventually gets a winner"). -/
def GoodBatches (players : List TPlayer) (k : Nat) :
    Nat → List (List (Nat × String)) → Prop
  | r, [] => r = k + 1
  | r, b :: bs => r ≤ k ∧ (b.map Prod.fst).Perm (List.range (2 ^ (k - r))) ∧
      (∀ jw ∈ b, ∃ p ∈ players, p.storedId = jw.2) ∧ GoodBatches players k (r + 1) bs

/-- What `reconnectTournament` does to one player slot of a match, stated
extensionally: slots not referencing the rebound identity are untouched; a
slot referencing it is replaced by the registry record refreshed with the
new socket (keeping the stored id, and the registry's copy of the name). -/
def RebindSpec (sid sock qname : String) (old new : Slot TPlayer) : Prop :=
  (old = Slot.null → new = Slot.null) ∧
  (old = Slot.undef → new = Slot.undef) ∧
  (∀ pp : TPlayer, old = Slot.val pp → pp.storedId ≠ sid → new = Slot.val pp) ∧
  (∀ pp : TPlayer, old = Slot.val pp → pp.storedId = sid →
    new = Slot.val ⟨pp.storedId, sock, qname⟩)

/-- Positional stability of match ids and of already-allocated session
codes across an operation on the match list (which may append new matches
but never disturbs existing ones). -/
def CodesPreserved (ms ms' : List TMatch) : Prop :=
  ms.length ≤ ms'.length ∧
  ∀ i m m', ms.get? i = some m → ms'.get? i = some m' →
    m'.id = m.id ∧ (strTruthy m.roomCode = true → m'.roomCode = m.roomCode)

/-! ## Concrete data for witnesses, counterexamples and sanity runs -/

/-- A deterministic stand-in for the session-code stream: 4-character,
never empty. -/
def gen0 : Nat → String := fun n => "RM0" ++ toString n

def pA : TPlayer := ⟨"sidA", "sockA", "Alice"⟩

def pB : TPlayer := ⟨"sidB", "sockB", "Bola"⟩

def pC : TPlayer := ⟨"sidC", "sockC", "Chi"⟩

def pD : TPlayer := ⟨"sidD", "sockD", "Dayo"⟩

def demoCard : Card := ⟨"circle", 1⟩

def demoDeck : InitDeck :=
  { deck := [⟨"star", 2⟩]
    userCards := [⟨"cross", 3⟩]
    usedCards := []
    opponentCards := [⟨"square", 5⟩]
    activeCard := demoCard }

def demoGS : GameState := freshPlayerOneState demoDeck

/-- A size-2 tournament `"T"` that `pA` and `pB` joined, auto-started on the
second join. -/
def demoT2 : Tournament :=
  (joinTournament gen0 0 (joinTournament gen0 0 (createTournament "T" 2 "Duel") pA).1 pB).1

/-- The single round-1 match of `demoT2` as started (code `"RM00"` was
allocated by `notifyMatchReady`). -/
def mDemo : TMatch :=
  { id := "T_r1_m0", p1 := .val pA, p2 := .val pB, winner := .null,
    round := 1, roomCode := some "RM00" }

/-- A size-1 tournament `"S"` (size `2 ^ 0`), auto-started by its only
participant's join. -/
def demoT1 : Tournament :=
  (joinTournament gen0 0 (createTournament "S" 1 "Solo") pA).1

/-- The game room linked to `demoT2`'s match, with both participants seated. -/
def demoRoom : Room :=
  { room_id := "RM00"
    isTournament := true
    tournamentId := some "T"
    matchId := some "T_r1_m0"
    messages := []
    players := [⟨"sidA", "sockA", .one⟩, ⟨"sidB", "sockB", .two⟩]
    playerOneState := demoGS }

def demoState : ServerState :=
  { rooms := [demoRoom], tournaments := [("T", demoT2)], ctr := 1 }

/-! ## Helper lemmas -/

theorem matchCore_roomCode (m : TMatch) (c : Option String) :
    MatchCore { m with roomCode := c } = MatchCore m := rfl

theorem find?_core_congr :
    ∀ (l l' : List TMatch), l.map MatchCore = l'.map MatchCore →
      ∀ mid : String,
        (l.find? (fun x => x.id == mid)).map MatchCore =
          (l'.find? (fun x => x.id == mid)).map MatchCore := by
  intro l
  induction l with
  | nil =>
    intro l' h mid
    cases l' with
    | nil => rfl
    | cons b l' => simp at h
  | cons a l ih =>
    intro l' h mid
    cases l' with
    | nil => simp at h
    | cons b l' =>
      simp only [List.map_cons, List.cons.injEq] at h
      obtain ⟨hab, hrest⟩ := h
      have hid : a.id = b.id := congrArg (fun c => c.1) hab
      have hbeq : (b.id == mid) = (a.id == mid) := by rw [hid]
      rw [List.find?_cons, List.find?_cons, hbeq]
      cases hp : (a.id == mid) with
      | true => simpa using hab
      | false => exact ih l' hrest mid

theorem notifyGo_map_core (gen : Nat → String) (rnd : Nat) (tid : String) :
    ∀ (ms : List TMatch) (c : Nat),
      ((notifyGo gen rnd tid ms c).1).map MatchCore = ms.map MatchCore := by
  intro ms
  induction ms with
  | nil => intro c; rfl
  | cons m ms ih =>
    intro c
    by_cases h : (m.round == rnd && !m.winner.truthy && m.p1.truthy && m.p2.truthy) = true
    · simp only [notifyGo, h, if_true, List.map_cons, matchCore_roomCode]
      rw [ih]
    · simp only [notifyGo, h, if_false, List.map_cons, Bool.false_eq_true]
      rw [ih]

theorem find?_core_prefix (l l' : List TMatch) (rest : List (String × Nat ×
      Slot TPlayer × Slot TPlayer × Slot TPlayer))
    (h : l'.map MatchCore = l.map MatchCore ++ rest) (mid : String) (m : TMatch)
    (hf : l.find? (fun x => x.id == mid) = some m) :
    ∃ m', l'.find? (fun x => x.id == mid) = some m' ∧ MatchCore m' = MatchCore m := by
  obtain ⟨l1, l2, hsplit, h1, h2⟩ := List.map_eq_append_iff.mp h
  subst hsplit
  have hcong := find?_core_congr l1 l h1 mid
  rw [hf] at hcong
  rw [List.find?_append]
  cases hfind : l1.find? (fun x => x.id == mid) with
  | none => rw [hfind] at hcong; simp at hcong
  | some m' =>
    rw [hfind] at hcong
    exact ⟨m', by simp, by simpa using hcong⟩

theorem advance_core_prefix (gen : Nat → String) (ctr : Nat) (t : Tournament) :
    ∃ rest, (advanceRound gen ctr t).1.matches.map MatchCore =
      t.matches.map MatchCore ++ rest := by
  unfold advanceRound
  dsimp only
  split
  · exact ⟨[], by simp⟩
  · split
    · exact ⟨[], by simp⟩
    · unfold notifyMatchReady
      dsimp only
      rw [notifyGo_map_core, List.map_append]
      exact ⟨_, rfl⟩

theorem find?_setWinnerFirst (mid : String) (w : Slot TPlayer) :
    ∀ (l : List TMatch) (m : TMatch),
      l.find? (fun x => x.id == mid) = some m →
      (setWinnerFirst mid w l).find? (fun x => x.id == mid) =
        some { m with winner := w } := by
  intro l
  induction l with
  | nil => intro m h; simp at h
  | cons a l ih =>
    intro m h
    rw [List.find?_cons] at h
    cases ha : (a.id == mid) with
    | true =>
      rw [ha] at h
      cases h
      simp only [setWinnerFirst, ha, if_true]
      rw [List.find?_cons]
      have : (({ a with winner := w } : TMatch).id == mid) = true := ha
      rw [this]
    | false =>
      rw [ha] at h
      simp only [setWinnerFirst, ha, Bool.false_eq_true, if_false]
      rw [List.find?_cons, ha]
      exact ih m h

theorem reportMatchResult_core_find (gen : Nat → String) (ctr : Nat)
    (t : Tournament) (mid wid : String) (m : TMatch) (p : TPlayer)
    (hf : t.matches.find? (fun x => x.id == mid) = some m)
    (hw : m.winner.truthy = false)
    (hp : t.players.find? (fun q => q.storedId == wid) = some p) :
    ∃ m', (reportMatchResult gen ctr t mid wid).1.matches.find?
        (fun x => x.id == mid) = some m' ∧ m'.winner = Slot.val p := by
  unfold reportMatchResult
  rw [hf]
  simp only [hw, Bool.false_eq_true, if_false, hp]
  set tset : Tournament :=
    { t with «matches» := setWinnerFirst mid (Slot.val p) t.matches } with htset
  have hfset : tset.matches.find? (fun x => x.id == mid) =
      some { m with winner := Slot.val p } :=
    find?_setWinnerFirst mid (Slot.val p) t.matches m hf
  obtain ⟨rest, hpre⟩ := advance_core_prefix gen ctr tset
  obtain ⟨m', hm', hcore⟩ := find?_core_prefix tset.matches _ rest hpre mid _ hfset
  refine ⟨m', hm', ?_⟩
  have : m'.winner = ({ m with winner := Slot.val p } : TMatch).winner :=
    congrArg (fun c => c.2.2.2.2) hcore
  simpa using this

theorem reportMatchResult_noop (gen : Nat → String) (ctr : Nat) (t : Tournament)
    (mid wid : String) (m : TMatch)
    (hf : t.matches.find? (fun x => x.id == mid) = some m)
    (hw : m.winner.truthy = true) :
    reportMatchResult gen ctr t mid wid = (t, ctr, []) := by
  unfold reportMatchResult
  rw [hf]
  simp [hw]

/-! ## Claim theorems -/

/-- C7: the seat-reorientation transform `reverseState` is an involution:
applying it twice returns the original canonical state exactly. -/
theorem C7_reverseState_involution :
    ∀ s : GameState, reverseState (reverseState s) = s := by
  intro s
  cases s with
  | mk deck userCards usedCards opponentCards activeCard whoIsToPlay
      infoText infoShown stateHasBeenInitialized player =>
    cases whoIsToPlay <;> cases player <;> rfl

/-- C8 (divergence witness): in a session with seats `sockA`/`sockB`, a state
update submitted by `sockA` through the `index.js` handler (`io.to`) is
dispatched to the whole room — the submitting connection `sockA` included —
while the current server file's handler (`socket.to`) dispatches only to the
other participant, as the claim and the in-code comment describe. -/
theorem C8_index_handler_echoes_sender :
    (handleSendUpdatedState_index [demoRoom] "sockA" demoGS "RM00").2 =
      [Effect.dispatchUpdate ["sockA", "sockB"] demoGS (reverseState demoGS)] ∧
    (handleSendUpdatedState [demoRoom] "sockA" demoGS "RM00").2 =
      [Effect.dispatchUpdate ["sockB"] demoGS (reverseState demoGS)] := by
  exact ⟨by decide, by decide⟩

/-- C10: a result report whose `winnerStoredId` matches no participant is not
rejected — the failed lookup (`undefined`) is written as the match winner and
the round advance proceeds, since `advanceRound` only tests `!== null`; a
whole tournament can thereby complete with an `undefined` winner (second
conjunct: the size-2 tournament completes with `winner = undefined` on a
report naming the unknown id `"ghost"`). -/
theorem C10_unmatched_winner_undefined :
    (∀ (gen : Nat → String) (ctr : Nat) (t : Tournament) (mid wid : String) (m : TMatch),
        t.matches.find? (fun x => x.id == mid) = some m →
        m.winner = Slot.null →
        t.players.find? (fun q => q.storedId == wid) = none →
        reportMatchResult gen ctr t mid wid =
          advanceRound gen ctr { t with «matches» := setWinnerFirst mid Slot.undef t.matches } ∧
        (setWinnerFirst mid Slot.undef t.matches).find? (fun x => x.id == mid) =
          some { m with winner := Slot.undef } ∧
        Slot.isNotNull (Slot.undef : Slot TPlayer) = true) ∧
    ((reportMatchResult gen0 1 demoT2 "T_r1_m0" "ghost").1.status = TStatus.completed ∧
      (reportMatchResult gen0 1 demoT2 "T_r1_m0" "ghost").1.winner = Slot.undef) := by
  constructor
  · intro gen ctr t mid wid m hf hnull hnone
    refine ⟨?_, find?_setWinnerFirst mid Slot.undef t.matches m hf, rfl⟩
    unfold reportMatchResult
    rw [hf, hnone]
    simp [hnull, Slot.truthy]
  · exact ⟨by decide, by decide⟩

/-- C1 (amended to the `game_over` handler): a `game_over` report whose
originating connection is bound to no participant of the named session
changes no tournament state and emits nothing — no `match_over`, no XP call —
beyond the unconditional delayed room cleanup. -/
theorem C1_unbound_game_over_is_inert :
    ∀ (gen : Nat → String) (s : ServerState) (sock : String) (data : GameOverData),
      ((s.rooms.find? (fun r => r.room_id == data.roomId)).all
        (fun room => room.players.all (fun q => q.socketId != sock))) = true →
      handleGameOver gen s sock data = (s, [Effect.scheduleRoomCleanup data.roomId]) := by
  intro gen s sock data hall
  unfold handleGameOver
  dsimp only
  cases hfind : s.rooms.find? (fun r => r.room_id == data.roomId) with
  | none =>
    cases data with
    | str rid => simp [hfind]
    | obj rid w => simp [hfind]
  | some room =>
    rw [hfind] at hall
    have hall' : room.players.all (fun q => q.socketId != sock) = true := by
      simpa [Option.all] using hall
    have hrep : room.players.find? (fun q => q.socketId == sock) = none := by
      rw [List.find?_eq_none]
      intro q hq
      have hb := List.all_eq_true.mp hall' q hq
      simp only [bne_iff_ne, ne_eq] at hb
      simp [hb]
    cases data with
    | str rid => simp [hfind]
    | obj rid w =>
      simp only [hfind]
      by_cases hc : (room.isTournament && strTruthy room.tournamentId
          && strTruthy room.matchId) = true
      · simp [hc, hrep]
      · simp [hc]

/-- Witness for C1's theorem at a concrete state: the connection `EVIL` is
bound to no participant of session `RM00`. -/
theorem C1_unbound_game_over_is_inert_witness :
    handleGameOver gen0 demoState "EVIL" (GameOverData.obj "RM00" (some "user")) =
      (demoState, [Effect.scheduleRoomCleanup "RM00"]) :=
  C1_unbound_game_over_is_inert gen0 demoState "EVIL"
    (GameOverData.obj "RM00" (some "user")) (by decide)

/-- C1 counterexample: a `tournament_match_win` report from the connection
`EVIL` — bound to no participant of session `RM00` — nevertheless records a
winner in tournament `T` (completing it), emits `match_over` and makes an XP
persistence call: the handler falls back to the client-supplied
`winnerStoredId` when the reporter cannot be verified. -/
theorem C1_unbound_tournament_match_win_records :
    (let r := handleTournamentMatchWin gen0 demoState "EVIL"
        { room_id := "RM00", tournamentId := none, matchId := none,
          winnerStoredId := some "sidA", winnerType := none }
     (demoRoom.players.all (fun q => q.socketId != "EVIL")) = true ∧
     r.1.tournaments.map (fun e => (e.1, e.2.status, e.2.winner)) =
       [("T", TStatus.completed, Slot.val pA)] ∧
     Effect.matchOver "RM00" "sidA" ∈ r.2 ∧
     Effect.xpUpdate "sidA" 10 true ∈ r.2) := by
  decide

/-- C2: once a report has recorded a (participant) winner for a match, any
further report for that match — same or different claimed winner, and
whatever the code stream does — leaves the tournament value and the counter
unchanged and emits nothing. -/
theorem C2_report_after_recorded_noop :
    ∀ (gen1 gen2 : Nat → String) (ctr : Nat) (t : Tournament) (mid w1 w2 : String)
      (m : TMatch) (p : TPlayer),
      t.matches.find? (fun x => x.id == mid) = some m →
      m.winner.truthy = false →
      t.players.find? (fun q => q.storedId == w1) = some p →
      reportMatchResult gen2 (reportMatchResult gen1 ctr t mid w1).2.1
          (reportMatchResult gen1 ctr t mid w1).1 mid w2 =
        ((reportMatchResult gen1 ctr t mid w1).1,
          (reportMatchResult gen1 ctr t mid w1).2.1, []) := by
  intro gen1 gen2 ctr t mid w1 w2 m p hf hw hp
  obtain ⟨m', hm', hw'⟩ := reportMatchResult_core_find gen1 ctr t mid w1 m p hf hw hp
  exact reportMatchResult_noop gen2 _ _ mid w2 m' hm' (by rw [hw']; rfl)

/-- Witness for C2's theorem: the duel tournament's match, first reported for
`sidA`, then re-reported for `sidB`: the second report is a no-op. -/
theorem C2_report_after_recorded_noop_witness :
    reportMatchResult gen0 (reportMatchResult gen0 1 demoT2 "T_r1_m0" "sidA").2.1
        (reportMatchResult gen0 1 demoT2 "T_r1_m0" "sidA").1 "T_r1_m0" "sidB" =
      ((reportMatchResult gen0 1 demoT2 "T_r1_m0" "sidA").1,
        (reportMatchResult gen0 1 demoT2 "T_r1_m0" "sidA").2.1, []) :=
  C2_report_after_recorded_noop gen0 gen0 1 demoT2 "T_r1_m0" "sidA" "sidB" mDemo pA
    (by decide) (by decide) (by decide)

/-- C4: joining a waiting tournament with a fresh `storedId` appends the
player in join order; the tournament turns active exactly when the
participant count reaches `size`, and at that moment round-1 matches are
generated pairing participants strictly in join order `(0,1),(2,3),…` (for
size 4 that is two matches, positions `(0,1)` and `(2,3)`); short of `size`
nothing else changes. -/
theorem C4_join_appends_and_fill_starts :
    ∀ (gen : Nat → String) (ctr : Nat) (t : Tournament) (player : TPlayer),
      t.status = TStatus.waiting →
      t.round = 1 →
      (∀ q ∈ t.players, q.storedId ≠ player.storedId) →
      t.players.length < t.size →
      (let r := joinTournament gen ctr t player
       r.2.2.2.success = true ∧
       r.1.players = t.players ++ [player] ∧
       (r.1.status = TStatus.active ↔ t.players.length + 1 = t.size) ∧
       (t.players.length + 1 = t.size →
          r.1.round = 1 ∧
          r.1.matches.map MatchCore = t.matches.map MatchCore ++
            (List.range ((t.size + 1) / 2)).map (fun j =>
              (mkId t.id 1 j, 1, jsIndex (t.players ++ [player]) (2 * j),
                if 2 * j + 1 < (t.players ++ [player]).length
                  then jsIndex (t.players ++ [player]) (2 * j + 1) else Slot.null,
                Slot.null))) ∧
       (t.players.length + 1 ≠ t.size →
          r.1.status = TStatus.waiting ∧ r.1.matches = t.matches ∧ r.1.round = t.round)) := by
  intro gen ctr t player hwait hround hfresh hlt
  have hany : t.players.any (fun p => p.storedId == player.storedId) = false := by
    rw [List.any_eq_false]
    intro q hq
    simpa using hfresh q hq
  unfold joinTournament
  dsimp only
  rw [hany]
  simp only [Bool.false_eq_true, if_false]
  rw [if_neg (by simp [hwait]), if_neg (Nat.not_le.mpr hlt)]
  by_cases hfull : t.players.length + 1 = t.size
  · have hbeq : ((t.players ++ [player]).length == t.size) = true := by
      simp [List.length_append, hfull]
    simp only [hbeq, if_true]
    unfold startTournament generateMatches
    dsimp only
    rw [if_pos (by simp [hround])]
    unfold notifyMatchReady
    dsimp only
    refine ⟨trivial, rfl, ?_, ?_, ?_⟩
    · exact ⟨fun _ => hfull, fun _ => rfl⟩
    · intro _
      refine ⟨hround, ?_⟩
      rw [notifyGo_map_core, List.map_append, List.map_map]
      rfl
    · intro hne; exact absurd hfull hne
  · have hbeq : ((t.players ++ [player]).length == t.size) = false := by
      simp [List.length_append, hfull]
    simp only [hbeq, Bool.false_eq_true, if_false]
    refine ⟨trivial, trivial, ?_, ?_, ?_⟩
    · simp [hwait, hfull]
    · intro h; exact absurd h hfull
    · intro _; exact ⟨hwait, trivial, trivial⟩

theorem find?_room_map (rooms : List Room) (f : Room → Room)
    (hpres : ∀ r, (f r).room_id = r.room_id) (rid : String) :
    (rooms.map f).find? (fun r => r.room_id == rid) =
      (rooms.find? (fun r => r.room_id == rid)).map f := by
  rw [List.find?_map]
  have h : ((fun r => r.room_id == rid) ∘ f) = (fun r : Room => r.room_id == rid) := by
    funext r
    simp [Function.comp, hpres]
  rw [h]

theorem eq_found_of_nodup (rooms : List Room) (rid : String) (room : Room)
    (hfind : rooms.find? (fun r => r.room_id == rid) = some room)
    (hnd : (rooms.map (fun r => r.room_id)).Nodup) :
    ∀ r ∈ rooms, r.room_id = rid → r = room := by
  obtain ⟨hpred, as, bs, hsplit, hbefore⟩ := List.find?_eq_some.mp hfind
  subst hsplit
  intro r hr hrid
  rcases List.mem_append.mp hr with h | h
  · have hb := hbefore r h
    rw [hrid] at hb
    simp at hb
  · rcases List.mem_cons.mp h with h | h
    · exact h
    · exfalso
      rw [List.map_append, List.map_cons] at hnd
      have hroomid : room.room_id = rid := by simpa using hpred
      have := (List.nodup_append.mp hnd).2.1
      rw [List.nodup_cons] at this
      exact this.1 (by
        rw [hroomid, ← hrid]
        exact List.mem_map.mpr ⟨r, h, rfl⟩)



theorem map_update_bound (rooms : List Room) (rid : String) (g : Room → Room)
    (hnd : (rooms.map (fun r => r.room_id)).Nodup)
    (hlen : ∀ r ∈ rooms, r.players.length ≤ 2)
    (room : Room)
    (hfind : rooms.find? (fun r => r.room_id == rid) = some room)
    (hg : (g room).players.length ≤ 2)
    (hgid : ∀ r, (g r).room_id = r.room_id) :
    (((rooms.map (fun r => if r.room_id == rid then g r else r)).map
        (fun r => r.room_id)).Nodup ∧
      ∀ r' ∈ rooms.map (fun r => if r.room_id == rid then g r else r),
        r'.players.length ≤ 2) := by
  constructor
  · rw [List.map_map]
    have : ((fun r : Room => r.room_id) ∘ fun r => if r.room_id == rid then g r else r)
        = fun r : Room => r.room_id := by
      funext r
      by_cases h : (r.room_id == rid) = true
      · simp [Function.comp, h, hgid]
      · simp [Function.comp, h]
    rw [this]
    exact hnd
  · intro r' hr'
    rcases List.mem_map.mp hr' with ⟨r, hr, hfr⟩
    by_cases h : (r.room_id == rid) = true
    · have : r = room := eq_found_of_nodup rooms rid room hfind hnd r hr (by simpa using h)
      subst this
      rw [← hfr]
      simpa [h] using hg
    · rw [← hfr]
      simpa [h] using hlen r hr


theorem joinRoom_capacity_bound :
    ∀ (d : InitDeck) (rooms : List Room) (sock : String) (p : JoinRoomPayload),
      (rooms.map (fun r => r.room_id)).Nodup →
      (∀ r ∈ rooms, r.players.length ≤ 2) →
      (((handleJoinRoom d rooms sock p).1.map (fun r => r.room_id)).Nodup ∧
        ∀ r' ∈ (handleJoinRoom d rooms sock p).1, r'.players.length ≤ 2) := by
  intro d rooms sock p hnd hlen
  unfold handleJoinRoom
  dsimp only
  by_cases hguard : (p.room_id.map String.length) = some 4
  · rw [if_neg (not_ne_iff.mpr hguard)]
    cases hfind : rooms.find? (fun r => r.room_id == p.room_id.getD "") with
    | none =>
      simp only [hfind]
      constructor
      · rw [List.map_append, List.nodup_append]
        refine ⟨hnd, by simp, ?_⟩
        intro a ha hb
        simp only [List.map_cons, List.map_nil, List.mem_singleton] at hb
        rcases List.mem_map.mp ha with ⟨r, hr, hid⟩
        have hno := List.find?_eq_none.mp hfind r hr
        rw [hb] at hid
        exact hno (by simp [hid])
      · intro r' hr'
        rcases List.mem_append.mp hr' with h | h
        · exact hlen r' h
        · simp only [List.mem_singleton] at h
          subst h
          simp
    | some room =>
      simp only [hfind]
      cases hpl : room.players with
      | nil =>
        exact ⟨hnd, hlen⟩
      | cons p0 tl =>
        cases tl with
        | nil =>
          by_cases hsame : (p0.storedId == p.storedId) = true
          · simp only [hsame, if_true]
            exact map_update_bound rooms _
              (fun r => { r with players :=
                [{ storedId := p.storedId, socketId := sock, seat := Seat.one }] })
              hnd hlen room hfind (by simp) (fun r => rfl)
          · simp only [hsame, Bool.false_eq_true, if_false]
            exact map_update_bound rooms _
              (fun r => { r with players := r.players ++
                [{ storedId := p.storedId, socketId := sock, seat := Seat.two }] })
              hnd hlen room hfind (by simp [hpl]) (fun r => rfl)
        | cons p1 tl2 =>
          cases hcp : (p0 :: p1 :: tl2).find? (fun x => x.storedId == p.storedId) with
          | none =>
            simp only [hcp]
            exact ⟨hnd, hlen⟩
          | some cp =>
            simp only [hcp]
            refine map_update_bound rooms _
              (fun r => { r with players := r.players.map (fun x =>
                if x.storedId == p.storedId then
                  { storedId := p.storedId, socketId := sock, seat := cp.seat }
                else x) })
              hnd hlen room hfind ?_ (fun r => rfl)
            simpa using hlen room (List.mem_of_find?_eq_some hfind)
  · rw [if_pos hguard]
    exact ⟨hnd, hlen⟩

theorem joinRoom_full_reject :
    ∀ (d : InitDeck) (rooms : List Room) (sock : String) (p : JoinRoomPayload)
      (rid : String) (room : Room),
      p.room_id = some rid → rid.length = 4 →
      rooms.find? (fun r => r.room_id == rid) = some room →
      room.players.length = 2 →
      (∀ q ∈ room.players, q.storedId ≠ p.storedId) →
      handleJoinRoom d rooms sock p = (rooms, [Effect.errorTo sock roomFullMsg]) := by
  intro d rooms sock p rid room hp hlen4 hfind hlen2 hfresh
  obtain ⟨q1, q2, hpl⟩ := List.length_eq_two.mp hlen2
  unfold handleJoinRoom
  dsimp only
  rw [if_neg (not_ne_iff.mpr (by simp [hp, hlen4]))]
  have hgetd : p.room_id.getD "" = rid := by rw [hp]; rfl
  rw [hgetd, hfind]
  dsimp only
  rw [hpl]
  dsimp only
  have hcp : ([q1, q2].find? (fun x => x.storedId == p.storedId)) = none := by
    rw [List.find?_eq_none]
    intro x hx
    have := hfresh x (by rw [hpl]; exact hx)
    simpa using this
  rw [hcp]

theorem joinRoom_rebind_keeps_players :
    ∀ (d : InitDeck) (rooms : List Room) (sock : String) (p : JoinRoomPayload)
      (rid : String) (room : Room) (q : RoomPlayer),
      p.room_id = some rid → rid.length = 4 →
      rooms.find? (fun r => r.room_id == rid) = some room →
      room.players.length = 2 →
      q ∈ room.players → q.storedId = p.storedId →
      ∃ r', (handleJoinRoom d rooms sock p).1.find? (fun r => r.room_id == rid) = some r' ∧
        r'.players.map (fun x => x.storedId) = room.players.map (fun x => x.storedId) ∧
        r'.players.length = room.players.length := by
  intro d rooms sock p rid room q hp hlen4 hfind hlen2 hq hqid
  obtain ⟨q1, q2, hpl⟩ := List.length_eq_two.mp hlen2
  unfold handleJoinRoom
  dsimp only
  rw [if_neg (not_ne_iff.mpr (by simp [hp, hlen4]))]
  have hgetd : p.room_id.getD "" = rid := by rw [hp]; rfl
  rw [hgetd, hfind]
  dsimp only
  rw [hpl]
  dsimp only
  have hex : ∃ x, x ∈ [q1, q2] ∧ (x.storedId == p.storedId) = true := by
    refine ⟨q, ?_, by simp [hqid]⟩
    rw [← hpl]; exact hq
  obtain ⟨cp, hcp⟩ := Option.isSome_iff_exists.mp (List.find?_isSome.mpr hex)
  rw [hcp]
  dsimp only
  have hroomid : (room.room_id == rid) = true := by
    have := List.find?_some hfind
    simpa using this
  have hsid : ∀ x : RoomPlayer,
      (if (x.storedId == p.storedId) = true then
        ({ storedId := p.storedId, socketId := sock, seat := cp.seat } : RoomPlayer)
      else x).storedId = x.storedId := by
    intro x
    by_cases h : (x.storedId == p.storedId) = true
    · simpa [h] using (by simpa using h : x.storedId = p.storedId).symm
    · simp [h]
  refine ⟨{ room with players := room.players.map (fun x =>
      if x.storedId == p.storedId then
        { storedId := p.storedId, socketId := sock, seat := cp.seat }
      else x) }, ?_, ?_, ?_⟩
  · rw [find?_room_map rooms
      (fun r => if r.room_id == rid then
        { r with players := r.players.map (fun x =>
          if x.storedId == p.storedId then
            { storedId := p.storedId, socketId := sock, seat := cp.seat }
          else x) }
        else r)
      (by intro r; by_cases h : (r.room_id == rid) = true <;> simp [h]) rid]
    rw [hfind]
    simp only [Option.map_some']
    rw [if_pos hroomid]
  · dsimp only
    rw [List.map_map, hpl]
    apply List.map_congr_left
    intro x hx
    simpa [Function.comp] using hsid x
  · dsimp only
    rw [hpl]
    simp

theorem joinRoom_reconnect_session :
    ∀ (d : InitDeck) (rooms : List Room) (sock : String) (p : JoinRoomPayload)
      (rid : String) (room : Room),
      p.room_id = some rid → rid.length = 4 →
      rooms.find? (fun r => r.room_id == rid) = some room →
      (∃ q ∈ room.players, q.storedId = p.storedId) →
      (room.players.map (fun x => x.storedId)).Nodup →
      (room.players.length = 1 → ∀ q ∈ room.players, q.seat = Seat.one) →
      ∃ r', (handleJoinRoom d rooms sock p).1.find? (fun r => r.room_id == rid) = some r' ∧
        r'.room_id = room.room_id ∧
        r'.messages = room.messages ∧
        r'.playerOneState = room.playerOneState ∧
        r'.players.map (fun x => x.storedId) = room.players.map (fun x => x.storedId) ∧
        r'.players.map (fun x => x.seat) = room.players.map (fun x => x.seat) ∧
        r'.players.map (fun x => x.socketId) = room.players.map (fun x =>
          if x.storedId == p.storedId then sock else x.socketId) := by
  intro d rooms sock p rid room hp hlen4 hfind hex hnd hseat
  unfold handleJoinRoom
  dsimp only
  rw [if_neg (not_ne_iff.mpr (by simp [hp, hlen4]))]
  have hgetd : p.room_id.getD "" = rid := by rw [hp]; rfl
  rw [hgetd, hfind]
  dsimp only
  have hroomid : (room.room_id == rid) = true := by
    have := List.find?_some hfind
    simpa using this
  cases hpl : room.players with
  | nil =>
    obtain ⟨q0, hq, _⟩ := hex
    rw [hpl] at hq
    simp at hq
  | cons p0 tl =>
    cases tl with
    | nil =>
      obtain ⟨q0, hq, hqid⟩ := hex
      rw [hpl] at hq
      simp only [List.mem_singleton] at hq
      have hp0 : p0.storedId = p.storedId := hq ▸ hqid
      have hsame : (p0.storedId == p.storedId) = true := by simp [hp0]
      dsimp only
      rw [if_pos hsame]
      have hone : p0.seat = Seat.one := by
        refine hseat ?_ p0 ?_
        · rw [hpl]; rfl
        · rw [hpl]; simp
      refine ⟨{ room with players :=
          [{ storedId := p.storedId, socketId := sock, seat := Seat.one }] },
        ?_, rfl, rfl, rfl, ?_, ?_, ?_⟩
      · rw [find?_room_map rooms
          (fun r => if r.room_id == rid then
            { r with players := [{ storedId := p.storedId, socketId := sock, seat := Seat.one }] }
            else r)
          (by intro r; by_cases h : (r.room_id == rid) = true <;> simp [h]) rid]
        rw [hfind]
        simp only [Option.map_some']
        rw [if_pos hroomid]
      · simp [hp0]
      · simp [hone]
      · simp [hp0]
    | cons p1 tl2 =>
      obtain ⟨q0, hq, hqid⟩ := hex
      have hexf : ∃ x, x ∈ p0 :: p1 :: tl2 ∧ (x.storedId == p.storedId) = true := by
        refine ⟨q0, ?_, by simp [hqid]⟩
        rw [← hpl]; exact hq
      obtain ⟨cp, hcp⟩ := Option.isSome_iff_exists.mp (List.find?_isSome.mpr hexf)
      dsimp only
      rw [hcp]
      have hcpmem : cp ∈ room.players := by
        rw [hpl]; exact List.mem_of_find?_eq_some hcp
      have hcpid : cp.storedId = p.storedId := by
        have := List.find?_some hcp
        simpa using this
      have hinj := List.inj_on_of_nodup_map hnd
      refine ⟨{ room with players := room.players.map (fun x =>
          if x.storedId == p.storedId then
            { storedId := p.storedId, socketId := sock, seat := cp.seat }
          else x) }, ?_, rfl, rfl, rfl, ?_, ?_, ?_⟩
      · rw [find?_room_map rooms
          (fun r => if r.room_id == rid then
            { r with players := r.players.map (fun x =>
              if x.storedId == p.storedId then
                { storedId := p.storedId, socketId := sock, seat := cp.seat }
              else x) }
            else r)
          (by intro r; by_cases h : (r.room_id == rid) = true <;> simp [h]) rid]
        rw [hfind]
        simp only [Option.map_some']
        rw [if_pos hroomid]
      · dsimp only
        rw [List.map_map, hpl]
        apply List.map_congr_left
        intro x hx
        by_cases h : (x.storedId == p.storedId) = true
        · simpa [Function.comp, h] using (by simpa using h : x.storedId = p.storedId).symm
        · simp [Function.comp, h]
      · dsimp only
        rw [List.map_map, hpl]
        apply List.map_congr_left
        intro x hx
        by_cases h : (x.storedId == p.storedId) = true
        · have hxid : x.storedId = p.storedId := by simpa using h
          have hxmem : x ∈ room.players := by rw [hpl]; exact hx
          have hxcp : x = cp := hinj hxmem hcpmem (by rw [hxid, hcpid])
          subst hxcp
          simp only [Function.comp]
          rw [if_pos h]
        · simp [Function.comp, h]
      · dsimp only
        rw [List.map_map, hpl]
        apply List.map_congr_left
        intro x hx
        by_cases h : (x.storedId == p.storedId) = true
        · simp [Function.comp, h]
        · simp [Function.comp, h]

theorem rebindSlot_spec (sid sock : String) (q : TPlayer) (hq : q.storedId = sid)
    (w : Slot TPlayer) :
    RebindSpec sid sock q.name w (rebindSlot sid { q with socketId := sock } w) := by
  unfold RebindSpec
  cases w with
  | null =>
    refine ⟨fun _ => rfl, ?_, ?_, ?_⟩
    · intro h; cases h
    · intro pp h; cases h
    · intro pp h _; cases h
  | undef =>
    refine ⟨?_, fun _ => rfl, ?_, ?_⟩
    · intro h; cases h
    · intro pp h; cases h
    · intro pp h _; cases h
  | val pp =>
    refine ⟨?_, ?_, ?_, ?_⟩
    · intro h; cases h
    · intro h; cases h
    · intro pp' hpp hne
      cases hpp
      have hb : (pp.storedId == sid) = false := by simp [hne]
      simp [rebindSlot, hb]
    · intro pp' hpp heq
      cases hpp
      have hb : (pp.storedId == sid) = true := by simp [heq]
      have hqp : q.storedId = pp.storedId := by rw [hq, heq]
      simp only [rebindSlot, hb, if_true]
      rw [hqp]

theorem reconnect_tournament_rebind :
    ∀ (t : Tournament) (player : TPlayer) (q : TPlayer),
      t.players.find? (fun x => x.storedId == player.storedId) = some q →
      (t.players.map (fun x => x.storedId)).Nodup →
      ((reconnectTournament t player).2.2.success = true ∧
       (reconnectTournament t player).1.status = t.status ∧
       (reconnectTournament t player).1.round = t.round ∧
       (reconnectTournament t player).1.size = t.size ∧
       (reconnectTournament t player).1.id = t.id ∧
       (reconnectTournament t player).1.players.map (fun x => x.storedId) =
         t.players.map (fun x => x.storedId) ∧
       (reconnectTournament t player).1.players.map (fun x => x.name) =
         t.players.map (fun x => x.name) ∧
       (reconnectTournament t player).1.players.map (fun x => x.socketId) =
         t.players.map (fun x =>
           if x.storedId == player.storedId then player.socketId else x.socketId) ∧
       (reconnectTournament t player).1.matches.length = t.matches.length ∧
       (∀ i mi mi', t.matches.get? i = some mi →
          (reconnectTournament t player).1.matches.get? i = some mi' →
          mi'.id = mi.id ∧ mi'.round = mi.round ∧ mi'.roomCode = mi.roomCode ∧
          RebindSpec player.storedId player.socketId q.name mi.p1 mi'.p1 ∧
          RebindSpec player.storedId player.socketId q.name mi.p2 mi'.p2 ∧
          RebindSpec player.storedId player.socketId q.name mi.winner mi'.winner)) := by
  intro t player q hfind hnd
  have hqid : q.storedId = player.storedId := by
    have := List.find?_some hfind
    simpa using this
  have hqmem : q ∈ t.players := List.mem_of_find?_eq_some hfind
  have hinj := List.inj_on_of_nodup_map hnd
  unfold reconnectTournament
  rw [hfind]
  dsimp only
  refine ⟨rfl, rfl, rfl, rfl, rfl, ?_, ?_, ?_, by simp, ?_⟩
  · rw [List.map_map]
    apply List.map_congr_left
    intro x hx
    by_cases h : (x.storedId == player.storedId) = true
    · have hx' : x.storedId = player.storedId := by simpa using h
      simpa [Function.comp, h] using by rw [hqid, hx']
    · simp [Function.comp, h]
  · rw [List.map_map]
    apply List.map_congr_left
    intro x hx
    by_cases h : (x.storedId == player.storedId) = true
    · have hx' : x.storedId = player.storedId := by simpa using h
      have : x = q := hinj hx hqmem (by rw [hx', hqid])
      simp [Function.comp, h, this, hqid]
    · simp [Function.comp, h]
  · rw [List.map_map]
    apply List.map_congr_left
    intro x hx
    by_cases h : (x.storedId == player.storedId) = true
    · simp [Function.comp, h]
    · simp [Function.comp, h]
  · intro i mi mi' hmi hmi'
    rw [List.get?_eq_getElem?, List.getElem?_map, ← List.get?_eq_getElem?, hmi] at hmi'
    simp only [Option.map_some'] at hmi'
    cases hmi'.symm
    refine ⟨rfl, rfl, rfl, ?_, ?_, ?_⟩
    · exact hqid ▸ rebindSlot_spec player.storedId player.socketId q hqid mi.p1
    · exact hqid ▸ rebindSlot_spec player.storedId player.socketId q hqid mi.p2
    · exact hqid ▸ rebindSlot_spec player.storedId player.socketId q hqid mi.winner

theorem joinTournament_delegates_reconnect :
    ∀ (gen : Nat → String) (ctr : Nat) (t : Tournament) (player : TPlayer),
      t.players.any (fun x => x.storedId == player.storedId) = true →
      joinTournament gen ctr t player =
        ((reconnectTournament t player).1, ctr,
          (reconnectTournament t player).2.1, (reconnectTournament t player).2.2) := by
  intro gen ctr t player h
  unfold joinTournament
  rw [if_pos h]

/-- Witness for C4's theorem: `pA` joins a fresh, empty size-2 tournament. -/
theorem C4_join_appends_and_fill_starts_witness :
    (let r := joinTournament gen0 0 (createTournament "W" 2 "Pair") pA
     r.2.2.2.success = true ∧
     r.1.players = (createTournament "W" 2 "Pair").players ++ [pA] ∧
     (r.1.status = TStatus.active ↔
        (createTournament "W" 2 "Pair").players.length + 1 =
          (createTournament "W" 2 "Pair").size) ∧
     ((createTournament "W" 2 "Pair").players.length + 1 =
          (createTournament "W" 2 "Pair").size →
        r.1.round = 1 ∧
        r.1.matches.map MatchCore = (createTournament "W" 2 "Pair").matches.map MatchCore ++
          (List.range (((createTournament "W" 2 "Pair").size + 1) / 2)).map (fun j =>
            (mkId (createTournament "W" 2 "Pair").id 1 j, 1,
              jsIndex ((createTournament "W" 2 "Pair").players ++ [pA]) (2 * j),
              if 2 * j + 1 < ((createTournament "W" 2 "Pair").players ++ [pA]).length
                then jsIndex ((createTournament "W" 2 "Pair").players ++ [pA]) (2 * j + 1)
                else Slot.null,
              Slot.null))) ∧
     ((createTournament "W" 2 "Pair").players.length + 1 ≠
          (createTournament "W" 2 "Pair").size →
        r.1.status = TStatus.waiting ∧
        r.1.matches = (createTournament "W" 2 "Pair").matches ∧
        r.1.round = (createTournament "W" 2 "Pair").round)) :=
  C4_join_appends_and_fill_starts gen0 0 (createTournament "W" 2 "Pair") pA
    rfl rfl (by decide) (by decide)

/-- C5: a session never holds more than 2 participants.  First conjunct: the
`join_room` handler preserves the registry invariant "distinct room codes and
at most 2 players per room".  Second: a join to a full (2-seat) session by an
unrecognised `storedId` is rejected with the session-full error and changes
nothing.  Third: a join by a recognised `storedId` into a full session keeps
the same participant identities and count (it only rebinds the connection). -/
theorem C5_session_never_exceeds_two :
    (∀ (d : InitDeck) (rooms : List Room) (sock : String) (p : JoinRoomPayload),
      (rooms.map (fun r => r.room_id)).Nodup →
      (∀ r ∈ rooms, r.players.length ≤ 2) →
      (((handleJoinRoom d rooms sock p).1.map (fun r => r.room_id)).Nodup ∧
        ∀ r' ∈ (handleJoinRoom d rooms sock p).1, r'.players.length ≤ 2)) ∧
    (∀ (d : InitDeck) (rooms : List Room) (sock : String) (p : JoinRoomPayload)
      (rid : String) (room : Room),
      p.room_id = some rid → rid.length = 4 →
      rooms.find? (fun r => r.room_id == rid) = some room →
      room.players.length = 2 →
      (∀ q ∈ room.players, q.storedId ≠ p.storedId) →
      handleJoinRoom d rooms sock p = (rooms, [Effect.errorTo sock roomFullMsg])) ∧
    (∀ (d : InitDeck) (rooms : List Room) (sock : String) (p : JoinRoomPayload)
      (rid : String) (room : Room) (q : RoomPlayer),
      p.room_id = some rid → rid.length = 4 →
      rooms.find? (fun r => r.room_id == rid) = some room →
      room.players.length = 2 →
      q ∈ room.players → q.storedId = p.storedId →
      ∃ r', (handleJoinRoom d rooms sock p).1.find? (fun r => r.room_id == rid) = some r' ∧
        r'.players.map (fun x => x.storedId) = room.players.map (fun x => x.storedId) ∧
        r'.players.length = room.players.length) :=
  ⟨joinRoom_capacity_bound, joinRoom_full_reject, joinRoom_rebind_keeps_players⟩

/-- C6: rejoining with an already-present `storedId` never duplicates a
participant.  First conjunct (session): the handler rebinds only the
connection — the stored identities, seats, messages and canonical state of
the room are unchanged, and exactly the rejoining identity's socket becomes
the new connection.  Second (tournament): `reconnectTournament` keeps the
participant sequence (identities and names) and every match's id, round and
session code, rebinding the socket in the player registry and in every match
slot (`p1`, `p2`, `winner`) that references the rejoining identity.  Third:
`joinTournament` routes an existing `storedId` to that reconnect path, so a
rejoin can never append a participant. -/
theorem C6_rejoin_never_duplicates :
    (∀ (d : InitDeck) (rooms : List Room) (sock : String) (p : JoinRoomPayload)
      (rid : String) (room : Room),
      p.room_id = some rid → rid.length = 4 →
      rooms.find? (fun r => r.room_id == rid) = some room →
      (∃ q ∈ room.players, q.storedId = p.storedId) →
      (room.players.map (fun x => x.storedId)).Nodup →
      (room.players.length = 1 → ∀ q ∈ room.players, q.seat = Seat.one) →
      ∃ r', (handleJoinRoom d rooms sock p).1.find? (fun r => r.room_id == rid) = some r' ∧
        r'.room_id = room.room_id ∧
        r'.messages = room.messages ∧
        r'.playerOneState = room.playerOneState ∧
        r'.players.map (fun x => x.storedId) = room.players.map (fun x => x.storedId) ∧
        r'.players.map (fun x => x.seat) = room.players.map (fun x => x.seat) ∧
        r'.players.map (fun x => x.socketId) = room.players.map (fun x =>
          if x.storedId == p.storedId then sock else x.socketId)) ∧
    (∀ (t : Tournament) (player : TPlayer) (q : TPlayer),
      t.players.find? (fun x => x.storedId == player.storedId) = some q →
      (t.players.map (fun x => x.storedId)).Nodup →
      ((reconnectTournament t player).2.2.success = true ∧
       (reconnectTournament t player).1.status = t.status ∧
       (reconnectTournament t player).1.round = t.round ∧
       (reconnectTournament t player).1.size = t.size ∧
       (reconnectTournament t player).1.id = t.id ∧
       (reconnectTournament t player).1.players.map (fun x => x.storedId) =
         t.players.map (fun x => x.storedId) ∧
       (reconnectTournament t player).1.players.map (fun x => x.name) =
         t.players.map (fun x => x.name) ∧
       (reconnectTournament t player).1.players.map (fun x => x.socketId) =
         t.players.map (fun x =>
           if x.storedId == player.storedId then player.socketId else x.socketId) ∧
       (reconnectTournament t player).1.matches.length = t.matches.length ∧
       (∀ i mi mi', t.matches.get? i = some mi →
          (reconnectTournament t player).1.matches.get? i = some mi' →
          mi'.id = mi.id ∧ mi'.round = mi.round ∧ mi'.roomCode = mi.roomCode ∧
          RebindSpec player.storedId player.socketId q.name mi.p1 mi'.p1 ∧
          RebindSpec player.storedId player.socketId q.name mi.p2 mi'.p2 ∧
          RebindSpec player.storedId player.socketId q.name mi.winner mi'.winner))) ∧
    (∀ (gen : Nat → String) (ctr : Nat) (t : Tournament) (player : TPlayer),
      t.players.any (fun x => x.storedId == player.storedId) = true →
      joinTournament gen ctr t player =
        ((reconnectTournament t player).1, ctr,
          (reconnectTournament t player).2.1, (reconnectTournament t player).2.2)) :=
  ⟨joinRoom_reconnect_session, reconnect_tournament_rebind, joinTournament_delegates_reconnect⟩

theorem codesPreserved_refl (ms : List TMatch) : CodesPreserved ms ms := by
  refine ⟨Nat.le_refl _, ?_⟩
  intro i m m' h h'
  rw [h] at h'
  cases h'
  exact ⟨rfl, fun _ => rfl⟩

theorem codesPreserved_trans {a b c : List TMatch}
    (hab : CodesPreserved a b) (hbc : CodesPreserved b c) : CodesPreserved a c := by
  obtain ⟨hl1, h1⟩ := hab
  obtain ⟨hl2, h2⟩ := hbc
  refine ⟨Nat.le_trans hl1 hl2, ?_⟩
  intro i m m' hm hm'
  cases hb : b.get? i with
  | none =>
    rw [List.get?_eq_none] at hb
    have : i < a.length := by
      cases hlt : a.get? i with
      | none => rw [hlt] at hm; cases hm
      | some x =>
        by_contra hge
        rw [List.get?_eq_none.mpr (Nat.le_of_not_lt hge)] at hlt
        cases hlt
    exact absurd hb (Nat.not_le.mpr (Nat.lt_of_lt_of_le this hl1))
  | some mb =>
    obtain ⟨hid1, hcode1⟩ := h1 i m mb hm hb
    obtain ⟨hid2, hcode2⟩ := h2 i mb m' hb hm'
    refine ⟨hid2.trans hid1, ?_⟩
    intro htr
    rw [hcode2, hcode1 htr]
    rw [hcode1 htr]
    exact htr

theorem codesPreserved_append (ms new : List TMatch) :
    CodesPreserved ms (ms ++ new) := by
  refine ⟨by simp, ?_⟩
  intro i m m' hm hm'
  have hi : i < ms.length := by
    cases hlt : ms.get? i with
    | none => rw [hlt] at hm; cases hm
    | some x =>
      by_contra hge
      rw [List.get?_eq_none.mpr (Nat.le_of_not_lt hge)] at hlt
      cases hlt
  rw [List.get?_eq_getElem?, List.getElem?_append_left hi, ← List.get?_eq_getElem?, hm] at hm'
  cases hm'
  exact ⟨rfl, fun _ => rfl⟩

theorem notifyGo_codes (gen : Nat → String) (rnd : Nat) (tid : String) :
    ∀ (ms : List TMatch) (c : Nat), CodesPreserved ms (notifyGo gen rnd tid ms c).1 := by
  intro ms
  induction ms with
  | nil => intro c; exact codesPreserved_refl []
  | cons m ms ih =>
    intro c
    by_cases h : (m.round == rnd && !m.winner.truthy && m.p1.truthy && m.p2.truthy) = true
    · simp only [notifyGo, h, if_true]
      refine ⟨?_, ?_⟩
      · have := (ih (if strTruthy m.roomCode then c else c + 1)).1
        simpa using this
      · intro i mm mm' hm hm'
        cases i with
        | zero =>
          simp only [List.get?] at hm hm'
          cases hm
          cases hm'
          refine ⟨rfl, ?_⟩
          intro htr
          show some (if strTruthy m.roomCode = true then m.roomCode.getD "" else gen c) =
            m.roomCode
          rw [if_pos htr]
          cases hrc : m.roomCode with
          | none => rw [hrc] at htr; simp [strTruthy] at htr
          | some s => simp [hrc]
        | succ j =>
          simp only [List.get?] at hm hm'
          exact (ih _).2 j mm mm' hm hm'
    · simp only [notifyGo, h, Bool.false_eq_true, if_false]
      refine ⟨?_, ?_⟩
      · have := (ih c).1
        simpa using this
      · intro i mm mm' hm hm'
        cases i with
        | zero =>
          simp only [List.get?] at hm hm'
          cases hm
          cases hm'
          exact ⟨rfl, fun _ => rfl⟩
        | succ j =>
          simp only [List.get?] at hm hm'
          exact (ih c).2 j mm mm' hm hm'

theorem setWinnerFirst_codes (mid : String) (w : Slot TPlayer) :
    ∀ ms : List TMatch, CodesPreserved ms (setWinnerFirst mid w ms) := by
  intro ms
  induction ms with
  | nil => exact codesPreserved_refl []
  | cons m ms ih =>
    by_cases h : (m.id == mid) = true
    · simp only [setWinnerFirst, h, if_true]
      refine ⟨by simp, ?_⟩
      intro i mm mm' hm hm'
      cases i with
      | zero =>
        simp only [List.get?] at hm hm'
        cases hm
        cases hm'
        exact ⟨rfl, fun _ => rfl⟩
      | succ j =>
        simp only [List.get?] at hm hm'
        rw [hm] at hm'
        cases hm'
        exact ⟨rfl, fun _ => rfl⟩
    · simp only [setWinnerFirst, h, Bool.false_eq_true, if_false]
      refine ⟨by simpa using ih.1, ?_⟩
      intro i mm mm' hm hm'
      cases i with
      | zero =>
        simp only [List.get?] at hm hm'
        cases hm
        cases hm'
        exact ⟨rfl, fun _ => rfl⟩
      | succ j =>
        simp only [List.get?] at hm hm'
        exact ih.2 j mm mm' hm hm'

theorem advanceRound_codes (gen : Nat → String) (ctr : Nat) (t : Tournament) :
    CodesPreserved t.matches (advanceRound gen ctr t).1.matches := by
  unfold advanceRound
  dsimp only
  split
  · exact codesPreserved_refl _
  · split
    · exact codesPreserved_refl _
    · unfold notifyMatchReady
      dsimp only
      exact codesPreserved_trans (codesPreserved_append _ _) (notifyGo_codes _ _ _ _ _)

theorem reportMatchResult_codes (gen : Nat → String) (ctr : Nat) (t : Tournament)
    (mid wid : String) :
    CodesPreserved t.matches (reportMatchResult gen ctr t mid wid).1.matches := by
  unfold reportMatchResult
  cases hf : t.matches.find? (fun x => x.id == mid) with
  | none => exact codesPreserved_refl _
  | some m =>
    dsimp only
    by_cases hw : m.winner.truthy = true
    · simp only [hw, if_true]
      exact codesPreserved_refl _
    · simp only [hw, Bool.false_eq_true, if_false]
      refine codesPreserved_trans ?_ (advanceRound_codes gen ctr _)
      exact setWinnerFirst_codes _ _ _

theorem requestMatchInfo_codes (gen : Nat → String) (ctr : Nat) (sock : String)
    (t : Tournament) (mid : String) :
    CodesPreserved t.matches (requestMatchInfo gen ctr sock t mid).1.matches := by
  unfold requestMatchInfo
  cases hf : t.matches.find? (fun x => x.id == mid) with
  | none => exact codesPreserved_refl _
  | some m =>
    dsimp only
    by_cases hc : strTruthy m.roomCode = true
    · simp only [hc, if_true]
      exact codesPreserved_refl _
    · simp only [hc, Bool.false_eq_true, if_false]
      exact notifyGo_codes _ _ _ _ _

theorem notifyGo_emits_stored (gen : Nat → String) (rnd : Nat) (tid : String) :
    ∀ (ms : List TMatch) (c : Nat) (toS code mid opp tid2 : String),
      Effect.matchReady toS code mid opp tid2 ∈ (notifyGo gen rnd tid ms c).2.2 →
      ∃ m', m' ∈ (notifyGo gen rnd tid ms c).1 ∧ m'.id = mid ∧ m'.roomCode = some code := by
  intro ms
  induction ms with
  | nil => intro c toS code mid opp tid2 h; simp [notifyGo] at h
  | cons m ms ih =>
    intro c toS code mid opp tid2 h
    by_cases hsel : (m.round == rnd && !m.winner.truthy && m.p1.truthy && m.p2.truthy) = true
    · simp only [notifyGo, hsel, if_true] at h ⊢
      rcases List.mem_cons.mp h with he | h2
      · refine ⟨_, List.mem_cons_self _ _, ?_, ?_⟩ <;> cases he <;> rfl
      · rcases List.mem_cons.mp h2 with he | h3
        · refine ⟨_, List.mem_cons_self _ _, ?_, ?_⟩ <;> cases he <;> rfl
        · obtain ⟨m', hmem, hid, hcode⟩ := ih _ toS code mid opp tid2 h3
          exact ⟨m', List.mem_cons_of_mem _ hmem, hid, hcode⟩
    · simp only [notifyGo, hsel, Bool.false_eq_true, if_false] at h ⊢
      obtain ⟨m', hmem, hid, hcode⟩ := ih c toS code mid opp tid2 h
      exact ⟨m', List.mem_cons_of_mem _ hmem, hid, hcode⟩
theorem requestMatchInfo_delivers_stored (gen : Nat → String) (ctr : Nat) (sock : String)
    (t : Tournament) (mid : String) (m : TMatch) (c : String)
    (hf : t.matches.find? (fun x => x.id == mid) = some m)
    (hc : m.roomCode = some c) (hne : c ≠ "") :
    ∃ opp, requestMatchInfo gen ctr sock t mid =
      (t, ctr, [Effect.matchReady sock c m.id opp t.id]) := by
  unfold requestMatchInfo
  rw [hf]
  dsimp only
  have htr : strTruthy m.roomCode = true := by simp [hc, strTruthy, hne]
  rw [if_pos htr]
  refine ⟨if ((Slot.getD default m.p1).socketId == sock) = true
    then (Slot.getD default m.p2).name else (Slot.getD default m.p1).name, ?_⟩
  rw [show m.roomCode.getD "" = c from by rw [hc]; rfl]

/-- C9: a session code for a match is allocated at most once and is stable.
`notifyMatchReady`, `reportMatchResult` and `requestMatchInfo` never disturb
an existing (truthy) `roomCode` — ids stay put, a set code stays set (first
three conjuncts); `requestMatchInfo` re-delivers exactly the stored code to
whichever participant's socket asks (fourth); and every `matchReady` push by
`notifyMatchReady` carries the code stored on that very match, so both
participants of a match are directed to the same session (fifth). -/
theorem C9_session_code_stable :
    (∀ (gen : Nat → String) (ctr : Nat) (t : Tournament),
      CodesPreserved t.matches (notifyMatchReady gen ctr t).1.matches) ∧
    (∀ (gen : Nat → String) (ctr : Nat) (t : Tournament) (mid wid : String),
      CodesPreserved t.matches (reportMatchResult gen ctr t mid wid).1.matches) ∧
    (∀ (gen : Nat → String) (ctr : Nat) (sock : String) (t : Tournament) (mid : String),
      CodesPreserved t.matches (requestMatchInfo gen ctr sock t mid).1.matches) ∧
    (∀ (gen : Nat → String) (ctr : Nat) (sock : String) (t : Tournament)
      (mid : String) (m : TMatch) (c : String),
      t.matches.find? (fun x => x.id == mid) = some m →
      m.roomCode = some c → c ≠ "" →
      ∃ opp, requestMatchInfo gen ctr sock t mid =
        (t, ctr, [Effect.matchReady sock c m.id opp t.id])) ∧
    (∀ (gen : Nat → String) (ctr : Nat) (t : Tournament)
      (toS code mid opp tid2 : String),
      Effect.matchReady toS code mid opp tid2 ∈ (notifyMatchReady gen ctr t).2.2 →
      ∃ m', m' ∈ (notifyMatchReady gen ctr t).1.matches ∧
        m'.id = mid ∧ m'.roomCode = some code) := by
  refine ⟨?_, ?_, ?_, ?_, ?_⟩
  · intro gen ctr t
    unfold notifyMatchReady
    exact notifyGo_codes gen t.round t.id t.matches ctr
  · intro gen ctr t mid wid
    exact reportMatchResult_codes gen ctr t mid wid
  · intro gen ctr sock t mid
    exact requestMatchInfo_codes gen ctr sock t mid
  · intro gen ctr sock t mid m c hf hc hne
    exact requestMatchInfo_delivers_stored gen ctr sock t mid m c hf hc hne
  · intro gen ctr t toS code mid opp tid2 h
    unfold notifyMatchReady at h ⊢
    exact notifyGo_emits_stored gen t.round t.id t.matches ctr toS code mid opp tid2 h


theorem notifyMatchReady_fields (gen : Nat → String) (ctr : Nat) (t : Tournament) :
    (notifyMatchReady gen ctr t).1.players = t.players ∧
    (notifyMatchReady gen ctr t).1.id = t.id ∧
    (notifyMatchReady gen ctr t).1.size = t.size ∧
    (notifyMatchReady gen ctr t).1.status = t.status ∧
    (notifyMatchReady gen ctr t).1.round = t.round := by
  unfold notifyMatchReady
  exact ⟨rfl, rfl, rfl, rfl, rfl⟩

theorem advanceRound_fields (gen : Nat → String) (ctr : Nat) (t : Tournament) :
    (advanceRound gen ctr t).1.players = t.players ∧
    (advanceRound gen ctr t).1.id = t.id ∧
    (advanceRound gen ctr t).1.size = t.size := by
  unfold advanceRound
  dsimp only
  split
  · exact ⟨by trivial, by trivial, by trivial⟩
  · split
    · exact ⟨by trivial, by trivial, by trivial⟩
    · unfold notifyMatchReady
      exact ⟨by trivial, by trivial, by trivial⟩

theorem reportMatchResult_fields (gen : Nat → String) (ctr : Nat) (t : Tournament)
    (mid wid : String) :
    (reportMatchResult gen ctr t mid wid).1.players = t.players ∧
    (reportMatchResult gen ctr t mid wid).1.id = t.id ∧
    (reportMatchResult gen ctr t mid wid).1.size = t.size := by
  unfold reportMatchResult
  cases hf : t.matches.find? (fun x => x.id == mid) with
  | none => exact ⟨by trivial, by trivial, by trivial⟩
  | some m =>
    dsimp only
    by_cases hw : m.winner.truthy = true
    · simp only [hw, if_true]
      exact ⟨by trivial, by trivial, by trivial⟩
    · simp only [hw, Bool.false_eq_true, if_false]
      exact advanceRound_fields gen ctr _

theorem advanceRound_stall (gen : Nat → String) (ctr : Nat) (t : Tournament)
    (m : TMatch) (hm : m ∈ t.matches) (hr : m.round = t.round)
    (hw : m.winner = Slot.null) :
    advanceRound gen ctr t = (t, ctr, [Effect.tournamentUpdate t.id]) := by
  unfold advanceRound
  dsimp only
  have hall : (t.matches.filter (fun x => x.round == t.round)).all
      (fun x => x.winner.isNotNull) = false := by
    rw [List.all_eq_false]
    exact ⟨m, List.mem_filter.mpr ⟨hm, by simp [hr]⟩, by rw [hw]; simp [Slot.isNotNull]⟩
  rw [hall]
  rfl

theorem idFresh_spec {tid : String} {k : Nat} (h : IdFresh tid k) :
    ∀ i i' j j' : Nat, i ≤ k → i' ≤ k → j < 2 ^ k → j' < 2 ^ k →
      mkId tid i j = mkId tid i' j' → i = i' ∧ j = j' := by
  intro i i' j j' hi hi' hj hj' heq
  unfold IdFresh idFreshB at h
  rw [List.all_eq_true] at h
  have h1 := h i (List.mem_range.mpr (Nat.lt_succ_of_le hi))
  rw [List.all_eq_true] at h1
  have h2 := h1 i' (List.mem_range.mpr (Nat.lt_succ_of_le hi'))
  rw [List.all_eq_true] at h2
  have h3 := h2 j (List.mem_range.mpr hj)
  rw [List.all_eq_true] at h3
  have h4 := h3 j' (List.mem_range.mpr hj')
  rw [Bool.or_eq_true] at h4
  rcases h4 with h4 | h4
  · rw [bne_iff_ne] at h4
    exact absurd heq h4
  · rw [Bool.and_eq_true] at h4
    exact ⟨by simpa using h4.1, by simpa using h4.2⟩

theorem find?_at_index {α : Type} (l : List α) (p : α → Bool) (j : Nat) (a : α)
    (hj : l.get? j = some a) (ha : p a = true)
    (hbefore : ∀ i, i < j → ∀ b, l.get? i = some b → p b = false) :
    l.find? p = some a := by
  induction l generalizing j with
  | nil => simp [List.get?] at hj
  | cons x xs ih =>
    cases j with
    | zero =>
      simp only [List.get?] at hj
      cases hj
      rw [List.find?_cons, ha]
    | succ jj =>
      have hx : p x = false := hbefore 0 (Nat.succ_pos _) x rfl
      rw [List.find?_cons, hx]
      exact ih jj hj (fun i hi b hb => hbefore (i + 1) (Nat.succ_lt_succ hi) b hb)

theorem setWinnerFirst_append_not (mid : String) (w : Slot TPlayer)
    (l1 l2 : List TMatch) (h : ∀ m ∈ l1, (m.id == mid) = false) :
    setWinnerFirst mid w (l1 ++ l2) = l1 ++ setWinnerFirst mid w l2 := by
  induction l1 with
  | nil => rfl
  | cons x xs ih =>
    have hx : (x.id == mid) = false := h x (by simp)
    simp only [List.cons_append, setWinnerFirst, hx, Bool.false_eq_true, if_false]
    show x :: setWinnerFirst mid w (xs ++ l2) = _
    rw [ih (fun m hm => h m (by simp [hm]))]

theorem setWinnerFirst_at_index (mid : String) (w : Slot TPlayer)
    (l : List TMatch) (j : Nat) (m : TMatch)
    (hj : l.get? j = some m) (hm : (m.id == mid) = true)
    (hbefore : ∀ i, i < j → ∀ b, l.get? i = some b → (b.id == mid) = false) :
    setWinnerFirst mid w l = l.set j { m with winner := w } := by
  induction l generalizing j with
  | nil => simp [List.get?] at hj
  | cons x xs ih =>
    cases j with
    | zero =>
      simp only [List.get?] at hj
      cases hj
      simp only [setWinnerFirst, hm, if_true, List.set]
    | succ jj =>
      have hx : (x.id == mid) = false := hbefore 0 (Nat.succ_pos _) x rfl
      simp only [setWinnerFirst, hx, Bool.false_eq_true, if_false, List.set]
      rw [ih jj hj (fun i hi b hb => hbefore (i + 1) (Nat.succ_lt_succ hi) b hb)]

theorem advanceRound_all_won (gen : Nat → String) (ctr : Nat) (t : Tournament)
    (k : Nat) (cur : List TMatch) (winners : List (Slot TPlayer))
    (hcur : cur = t.matches.filter (fun m => m.round == t.round))
    (hwinners : winners = (cur.map (fun m => m.winner)).filter (fun w => w.isNotNull))
    (hsize : t.size = 2 ^ k) (hact : t.status = TStatus.active)
    (hwon : ∀ m ∈ cur, ∃ p, m.winner = Slot.val p) :
    ((advanceRound gen ctr t).1.status = TStatus.completed ↔
      (cur.length = 1 ∧ k ≤ t.round)) ∧
    (cur.length = 1 ∧ k ≤ t.round →
      advanceRound gen ctr t =
        ({ t with status := TStatus.completed, winner := winners.headI },
          ctr, [Effect.tournamentUpdate t.id, Effect.scheduleCleanup t.id])) ∧
    (¬(cur.length = 1 ∧ k ≤ t.round) →
      ((advanceRound gen ctr t).1.round = t.round + 1 ∧
       (advanceRound gen ctr t).1.status = TStatus.active ∧
       (advanceRound gen ctr t).1.players = t.players ∧
       (advanceRound gen ctr t).1.id = t.id ∧
       (advanceRound gen ctr t).1.size = t.size ∧
       (advanceRound gen ctr t).1.matches.map MatchCore =
         t.matches.map MatchCore ++
           (List.range ((winners.length + 1) / 2)).map (fun j =>
             (mkId t.id (t.round + 1) j, t.round + 1,
               jsIndexS winners (2 * j),
               if 2 * j + 1 < winners.length then jsIndexS winners (2 * j + 1)
               else Slot.null,
               Slot.null)))) := by
  have hwfull : (cur.map (fun m => m.winner)).filter (fun w => w.isNotNull) =
      cur.map (fun m => m.winner) := by
    rw [List.filter_eq_self]
    intro w hw
    rcases List.mem_map.mp hw with ⟨m, hm, hwm⟩
    obtain ⟨p, hp⟩ := hwon m hm
    rw [← hwm, hp]
    rfl
  have hwl : winners.length = cur.length := by
    rw [hwinners, hwfull, List.length_map]
  have hall : cur.all (fun x => x.winner.isNotNull) = true := by
    rw [List.all_eq_true]
    intro m hm
    obtain ⟨p, hp⟩ := hwon m hm
    rw [hp]
    rfl
  have hbool : ((winners.length == 1 && decide (t.size ≤ 2 ^ t.round)) = true) ↔
      (winners.length = 1 ∧ k ≤ t.round) := by
    rw [Bool.and_eq_true, beq_iff_eq, decide_eq_true_eq, hsize,
      Nat.pow_le_pow_iff_right (by norm_num)]
  unfold advanceRound
  dsimp only
  rw [← hcur, ← hwinners, hall]
  simp only [Bool.not_true, Bool.false_eq_true, if_false]
  by_cases hc : winners.length = 1 ∧ k ≤ t.round
  · rw [if_pos (hbool.mpr hc)]
    refine ⟨?_, fun _ => rfl, ?_⟩
    · constructor
      · intro _
        exact ⟨by rw [← hwl]; exact hc.1, hc.2⟩
      · intro _
        rfl
    · intro hnc
      exact absurd ⟨by rw [← hwl]; exact hc.1, hc.2⟩ hnc
  · rw [if_neg (fun hh => hc (hbool.mp hh))]
    have hfields := notifyMatchReady_fields gen ctr
      { t with round := t.round + 1, «matches» := t.matches ++
        (List.range ((winners.length + 1) / 2)).map (fun j =>
          { id := mkId t.id (t.round + 1) j
            p1 := jsIndexS winners (2 * j)
            p2 := if 2 * j + 1 < winners.length then jsIndexS winners (2 * j + 1)
              else Slot.null
            winner := Slot.null
            round := t.round + 1
            roomCode := none }) }
    have hst : (notifyMatchReady gen ctr
        { t with round := t.round + 1, «matches» := t.matches ++
          (List.range ((winners.length + 1) / 2)).map (fun j =>
            { id := mkId t.id (t.round + 1) j
              p1 := jsIndexS winners (2 * j)
              p2 := if 2 * j + 1 < winners.length then jsIndexS winners (2 * j + 1)
                else Slot.null
              winner := Slot.null
              round := t.round + 1
              roomCode := none }) }).1.status = TStatus.active := by
      rw [hfields.2.2.2.1]
      exact hact
    refine ⟨?_, ?_, ?_⟩
    · constructor
      · intro hcomp
        rw [hst] at hcomp
        cases hcomp
      · intro hh
        exact absurd ⟨by rw [hwl]; exact hh.1, hh.2⟩ hc
    · intro hh
      exact absurd ⟨by rw [hwl]; exact hh.1, hh.2⟩ hc
    · intro _
      refine ⟨?_, hst, ?_, ?_, ?_, ?_⟩
      · rw [hfields.2.2.2.2]
      · exact hfields.1
      · exact hfields.2.1
      · exact hfields.2.2.1
      · show ((notifyMatchReady gen ctr _).1.matches.map MatchCore) = _
        unfold notifyMatchReady
        dsimp only
        rw [notifyGo_map_core, List.map_append, List.map_map]
        rfl

theorem exists_get?_of_lt {α : Type} (l : List α) (j : Nat) (h : j < l.length) :
    ∃ a, l.get? j = some a := by
  cases hg : l.get? j with
  | none => exact absurd (List.get?_eq_none.mp hg) (Nat.not_le.mpr h)
  | some a => exact ⟨a, rfl⟩

theorem get?_set_self {α : Type} (l : List α) (j : Nat) (a : α) (h : j < l.length) :
    (l.set j a).get? j = some a := by
  induction l generalizing j with
  | nil => cases h
  | cons x xs ih =>
    cases j with
    | zero => rfl
    | succ n => exact ih n (Nat.lt_of_succ_lt_succ h)

theorem get?_set_other {α : Type} (l : List α) (i j : Nat) (a : α) (h : i ≠ j) :
    (l.set i a).get? j = l.get? j := by
  induction l generalizing i j with
  | nil => rfl
  | cons x xs ih =>
    cases i with
    | zero =>
      cases j with
      | zero => exact absurd rfl h
      | succ n => rfl
    | succ m =>
      cases j with
      | zero => rfl
      | succ n => exact ih m n (fun he => h (by rw [he]))

theorem lt_of_get?_eq_some {α : Type} {l : List α} {n : Nat} {a : α}
    (h : l.get? n = some a) : n < l.length := by
  by_contra hn
  rw [List.get?_eq_none.mpr (Nat.le_of_not_lt hn)] at h
  cases h

theorem map_eq_append_split {α β : Type} (f : α → β) (l : List α) (s u : List β)
    (h : l.map f = s ++ u) :
    ∃ l1 l2, l = l1 ++ l2 ∧ l1.map f = s ∧ l2.map f = u := by
  induction s generalizing l with
  | nil => exact ⟨[], l, rfl, rfl, h⟩
  | cons b bs ih =>
    cases l with
    | nil => simp at h
    | cons a as =>
      simp only [List.map_cons, List.cons_append, List.cons.injEq] at h
      obtain ⟨h1, h2⟩ := h
      obtain ⟨l1, l2, he, hm1, hm2⟩ := ih as h2
      exact ⟨a :: l1, l2, by rw [he, List.cons_append], by simp [h1, hm1], hm2⟩

theorem report_step (gen : Nat → String) (ctr : Nat) (t : Tournament) (k r : Nat)
    (pend : List Nat) (j : Nat) (wid : String)
    (hInv : MidInv k r pend t) (hIdF : IdFresh t.id k)
    (hjmem : j ∈ pend) (hnd : pend.Nodup)
    (hbound : ∀ x ∈ pend, x < 2 ^ (k - r))
    (hwid : ∃ p ∈ t.players, p.storedId = wid) :
    (pend.erase j ≠ [] →
      MidInv k r (pend.erase j) (reportMatchResult gen ctr t (mkId t.id r j) wid).1 ∧
      (reportMatchResult gen ctr t (mkId t.id r j) wid).2.1 = ctr) ∧
    (pend.erase j = [] →
      (r < k → Inv k (r + 1) (reportMatchResult gen ctr t (mkId t.id r j) wid).1) ∧
      (r = k →
        (reportMatchResult gen ctr t (mkId t.id r j) wid).1.status = TStatus.completed ∧
        (reportMatchResult gen ctr t (mkId t.id r j) wid).1.round = k ∧
        ∃ p ∈ t.players, (reportMatchResult gen ctr t (mkId t.id r j) wid).1.winner
          = Slot.val p)) := by
  obtain ⟨hstat, hround, h1r, hrk, hsize, done, cur, hsplit, hcurlen, hdone, hcurfact⟩ := hInv
  have hjlt : j < 2 ^ (k - r) := hbound j hjmem
  have hjltc : j < cur.length := by rw [hcurlen]; exact hjlt
  obtain ⟨mj, hmj⟩ := exists_get?_of_lt cur j hjltc
  obtain ⟨hmjr, hmjid, hmjn, hmjv⟩ := hcurfact j mj hmj
  have hmjnull := hmjn hjmem
  have hsub : 2 ^ (k - r) ≤ 2 ^ k := Nat.pow_le_pow_right (by norm_num) (Nat.sub_le k r)
  have hidf := idFresh_spec hIdF
  have hdone_ne : ∀ x ∈ done, ∀ j2, j2 < 2 ^ (k - r) →
      (x.id == mkId t.id r j2) = false := by
    intro x hx j2 hj2
    obtain ⟨hxr, i', j', h1i, hir, hj'k, hxid⟩ := hdone x hx
    rw [hxid]
    by_contra hne
    rw [Bool.not_eq_false, beq_iff_eq] at hne
    obtain ⟨hii, _⟩ := hidf i' r j' j2 (Nat.le_of_lt (Nat.lt_of_lt_of_le hir hrk)) hrk
      hj'k (Nat.lt_of_lt_of_le hj2 hsub) hne
    exact absurd hii (Nat.ne_of_lt hir)
  have hcur_ne : ∀ i2, i2 < cur.length → i2 ≠ j → ∀ b, cur.get? i2 = some b →
      (b.id == mkId t.id r j) = false := by
    intro i2 hi2 hne b hb
    rw [(hcurfact i2 b hb).2.1]
    by_contra hcontra
    rw [Bool.not_eq_false, beq_iff_eq] at hcontra
    obtain ⟨_, hjj⟩ := hidf r r i2 j hrk hrk
      (Nat.lt_of_lt_of_le (by rw [← hcurlen]; exact hi2) hsub)
      (Nat.lt_of_lt_of_le hjlt hsub) hcontra
    exact hne hjj
  have hfind : t.matches.find? (fun x => x.id == mkId t.id r j) = some mj := by
    rw [hsplit, List.find?_append]
    have hd : done.find? (fun x => x.id == mkId t.id r j) = none := by
      rw [List.find?_eq_none]
      intro x hx
      simp [hdone_ne x hx j hjlt]
    rw [hd, find?_at_index cur _ j mj hmj (by simp [hmjid])
      (fun i hi b hb => hcur_ne i (Nat.lt_trans hi hjltc) (Nat.ne_of_lt hi) b hb)]
    rfl
  unfold reportMatchResult
  rw [hfind]
  have hwt : mj.winner.truthy = false := by rw [hmjnull]; rfl
  simp only [hwt, Bool.false_eq_true, if_false]
  obtain ⟨p0, hp0m, hp0i⟩ := hwid
  have hps : (t.players.find? (fun p => p.storedId == wid)).isSome :=
    List.find?_isSome.mpr ⟨p0, hp0m, by simp [hp0i]⟩
  obtain ⟨p', hp'⟩ := Option.isSome_iff_exists.mp hps
  have hp'mem : p' ∈ t.players := List.mem_of_find?_eq_some hp'
  rw [hp']
  have hsw : setWinnerFirst (mkId t.id r j) (Slot.val p') t.matches =
      done ++ cur.set j { mj with winner := Slot.val p' } := by
    rw [hsplit, setWinnerFirst_append_not _ _ done cur
        (fun m hm => hdone_ne m hm j hjlt),
      setWinnerFirst_at_index _ _ cur j mj hmj (by simp [hmjid])
        (fun i hi b hb => hcur_ne i (Nat.lt_trans hi hjltc) (Nat.ne_of_lt hi) b hb)]
  rw [hsw]
  have hsetfact : ∀ i2 b,
      (cur.set j { mj with winner := Slot.val p' }).get? i2 = some b →
      b.round = r ∧ b.id = mkId t.id r i2 ∧
      ((i2 ≠ j → cur.get? i2 = some b) ∧
       (i2 = j → b = { mj with winner := Slot.val p' })) := by
    intro i2 b hb
    by_cases hij : i2 = j
    · have hb2 : (cur.set j { mj with winner := Slot.val p' }).get? j =
          some { mj with winner := Slot.val p' } := get?_set_self cur j _ hjltc
      rw [hij] at hb
      rw [hb2] at hb
      have hbe := Option.some.inj hb
      refine ⟨?_, ?_, fun h => absurd hij h, fun _ => hbe.symm⟩
      · rw [← hbe]; exact hmjr
      · rw [← hbe, hij]; exact hmjid
    · have hb2 : cur.get? i2 = some b := by
        rw [← get?_set_other cur j i2 _ (fun he => hij he.symm)]; exact hb
      have hf := hcurfact i2 b hb2
      exact ⟨hf.1, hf.2.1, fun _ => hb2, fun he => absurd he hij⟩
  constructor
  · intro hne
    obtain ⟨j2, hj2mem⟩ := List.exists_mem_of_ne_nil _ hne
    have hj2 := (List.Nodup.mem_erase_iff hnd).mp hj2mem
    have hj2lt : j2 < cur.length := by rw [hcurlen]; exact hbound j2 hj2.2
    obtain ⟨mj2, hmj2⟩ := exists_get?_of_lt cur j2 hj2lt
    have hmj2f := hcurfact j2 mj2 hmj2
    have hmj2set : (cur.set j { mj with winner := Slot.val p' }).get? j2 = some mj2 := by
      rw [get?_set_other cur j j2 _ (fun he => hj2.1 he.symm)]
      exact hmj2
    have hmem2 : mj2 ∈ done ++ cur.set j { mj with winner := Slot.val p' } :=
      List.mem_append_right _ (List.get?_mem hmj2set)
    rw [advanceRound_stall gen ctr _ mj2 hmem2
      (by show mj2.round = t.round; rw [hround]; exact hmj2f.1)
      (hmj2f.2.2.1 hj2.2)]
    refine ⟨⟨hstat, hround, h1r, hrk, hsize,
      done, cur.set j { mj with winner := Slot.val p' }, rfl, ?_, hdone, ?_⟩, rfl⟩
    · rw [List.length_set]; exact hcurlen
    · intro i2 b hb
      have hf := hsetfact i2 b hb
      refine ⟨hf.1, hf.2.1, ?_, ?_⟩
      · intro hmem
        have hm2 := (List.Nodup.mem_erase_iff hnd).mp hmem
        have hb2 := hf.2.2.1 hm2.1
        exact (hcurfact i2 b hb2).2.2.1 hm2.2
      · intro hnmem
        by_cases hij : i2 = j
        · refine ⟨p', hp'mem, ?_⟩
          rw [hf.2.2.2 hij]
        · have hb2 := hf.2.2.1 hij
          have hnp : i2 ∉ pend := fun hm2 =>
            hnmem ((List.Nodup.mem_erase_iff hnd).mpr ⟨hij, hm2⟩)
          exact (hcurfact i2 b hb2).2.2.2 hnp
  · intro hnil
    have hpend1 : ∀ x ∈ pend, x = j := by
      intro x hx
      by_contra hxne
      have hm2 : x ∈ pend.erase j := (List.Nodup.mem_erase_iff hnd).mpr ⟨hxne, hx⟩
      rw [hnil] at hm2
      cases hm2
    have hwon2 : ∀ m ∈ cur.set j { mj with winner := Slot.val p' },
        ∃ p ∈ t.players, m.winner = Slot.val p := by
      intro m hm
      obtain ⟨i2, hi2⟩ := List.mem_iff_get?.mp hm
      have hf := hsetfact i2 m hi2
      by_cases hij : i2 = j
      · exact ⟨p', hp'mem, by rw [hf.2.2.2 hij]⟩
      · have hb2 := hf.2.2.1 hij
        exact (hcurfact i2 m hb2).2.2.2 (fun hmem => hij (hpend1 i2 hmem))
    have hfilter : (done ++ cur.set j { mj with winner := Slot.val p' }).filter
        (fun m => m.round == t.round) = cur.set j { mj with winner := Slot.val p' } := by
      rw [List.filter_append]
      have h1 : done.filter (fun m => m.round == t.round) = [] := by
        rw [List.filter_eq_nil]
        intro m hm
        have hlt := (hdone m hm).1
        simp [hround, Nat.ne_of_lt hlt]
      have h2 : (cur.set j { mj with winner := Slot.val p' }).filter
          (fun m => m.round == t.round) = cur.set j { mj with winner := Slot.val p' } := by
        rw [List.filter_eq_self]
        intro m hm
        obtain ⟨i2, hi2⟩ := List.mem_iff_get?.mp hm
        simp [(hsetfact i2 m hi2).1, hround]
      rw [h1, h2, List.nil_append]
    have hAW := advanceRound_all_won gen ctr
      { t with «matches» := done ++ cur.set j { mj with winner := Slot.val p' } } k
      (cur.set j { mj with winner := Slot.val p' })
      (((cur.set j { mj with winner := Slot.val p' }).map (fun m => m.winner)).filter
        (fun w => w.isNotNull))
      hfilter.symm rfl hsize hstat
      (fun m hm => (hwon2 m hm).imp (fun p hp => hp.2))
    obtain ⟨-, hcomp, hadv⟩ := hAW
    have hwfull2 : ((cur.set j { mj with winner := Slot.val p' }).map
        (fun m => m.winner)).filter (fun w => w.isNotNull) =
        (cur.set j { mj with winner := Slot.val p' }).map (fun m => m.winner) := by
      rw [List.filter_eq_self]
      intro w hw
      rcases List.mem_map.mp hw with ⟨m, hm, hwm⟩
      obtain ⟨p, -, hp⟩ := hwon2 m hm
      rw [← hwm, hp]
      rfl
    have hwl : (((cur.set j { mj with winner := Slot.val p' }).map
        (fun m => m.winner)).filter (fun w => w.isNotNull)).length = 2 ^ (k - r) := by
      rw [hwfull2, List.length_map, List.length_set, hcurlen]
    constructor
    · intro hrk2
      obtain ⟨hr1, hst1, hpl1, hid1, hsz1, hmap1⟩ := hadv (by
        rintro ⟨-, hk⟩
        have hk2 : k ≤ r := by rw [← hround]; exact hk
        exact absurd hk2 (Nat.not_le.mpr hrk2))
      obtain ⟨l1, l2, hsplit2, hm1, hm2⟩ := map_eq_append_split MatchCore _ _ _ hmap1
      have harith : (2 ^ (k - r) + 1) / 2 = 2 ^ (k - (r + 1)) := by
        have hkr : k - r = (k - (r + 1)) + 1 := by omega
        rw [hkr, pow_succ, Nat.mul_comm, Nat.mul_add_div (by norm_num),
          Nat.div_eq_of_lt (by norm_num), Nat.add_zero]
      have hc := congrArg List.length hm2
      simp only [List.length_map, List.length_range] at hc
      have hlen2 : l2.length = 2 ^ (k - (r + 1)) := by rw [hc, hwl, harith]
      have hjjfact : ∀ jj b, l2.get? jj = some b →
          b.round = r + 1 ∧ b.id = mkId t.id (r + 1) jj ∧ b.winner = Slot.null := by
        intro jj b hb
        have hjjn := hc ▸ lt_of_get?_eq_some hb
        have hcm : (l2.map MatchCore).get? jj = some (MatchCore b) := by
          rw [List.get?_map, hb]; rfl
        rw [hm2, List.get?_map, List.get?_range hjjn] at hcm
        have hcore := Option.some.inj hcm
        refine ⟨?_, ?_, ?_⟩
        · have h2 : t.round + 1 = b.round := congrArg (fun c => c.2.1) hcore
          rw [← h2, hround]
        · have h1 : mkId t.id (t.round + 1) jj = b.id := congrArg (fun c => c.1) hcore
          rw [← h1, hround]
        · have h5 : Slot.null = b.winner := congrArg (fun c => c.2.2.2.2) hcore
          exact h5.symm
      refine ⟨hst1, hr1.trans (by rw [hround]), Nat.succ_le_succ (Nat.zero_le r),
        hrk2, hsz1.trans hsize, l1, l2, hsplit2, hlen2, ?_, ?_⟩
      · intro m hm
        obtain ⟨i2, hi2⟩ := List.mem_iff_get?.mp hm
        have hcm : (l1.map MatchCore).get? i2 = some (MatchCore m) := by
          rw [List.get?_map, hi2]; rfl
        rw [hm1, List.get?_map] at hcm
        obtain ⟨m0, hm0, hcore⟩ := Option.map_eq_some'.mp hcm
        have hrm : m.round = m0.round := (congrArg (fun c => c.2.1) hcore).symm
        have him : m.id = m0.id := (congrArg (fun c => c.1) hcore).symm
        rcases List.mem_append.mp (List.get?_mem hm0) with hd | hcmem
        · obtain ⟨hrlt, i', j', h1i, hir, hjk, hid⟩ := hdone m0 hd
          refine ⟨by rw [hrm]; exact Nat.lt_succ_of_lt hrlt,
            i', j', h1i, Nat.lt_succ_of_lt hir, hjk, ?_⟩
          rw [hid1, him]
          exact hid
        · obtain ⟨i3, hi3⟩ := List.mem_iff_get?.mp hcmem
          have hf := hsetfact i3 m0 hi3
          have hi3lt : i3 < cur.length := by
            have hl := lt_of_get?_eq_some hi3
            rw [List.length_set] at hl
            exact hl
          refine ⟨?_, r, i3, h1r, Nat.lt_succ_self r, ?_, ?_⟩
          · rw [hrm, hf.1]; exact Nat.lt_succ_self r
          · exact Nat.lt_of_lt_of_le (by rw [← hcurlen]; exact hi3lt) hsub
          · rw [hid1, him]; exact hf.2.1
      · intro jj b hb
        have hf := hjjfact jj b hb
        refine ⟨hf.1, ?_, fun _ => hf.2.2, ?_⟩
        · rw [hid1]; exact hf.2.1
        · intro hnmem
          exact absurd (List.mem_range.mpr
            (by rw [← hlen2]; exact lt_of_get?_eq_some hb)) hnmem
    · intro hre
      have hj0 : j = 0 := by
        have h2 := hjlt
        rw [hre, Nat.sub_self, pow_zero] at h2
        exact Nat.lt_one_iff.mp h2
      have hlen1 : (cur.set j { mj with winner := Slot.val p' }).length = 1 := by
        rw [List.length_set, hcurlen, hre, Nat.sub_self, pow_zero]
      have heq := hcomp ⟨hlen1, by show k ≤ t.round; rw [hround, hre]⟩
      rw [heq]
      obtain ⟨a, ha⟩ := List.length_eq_one.mp
        (show cur.length = 1 by rw [hcurlen, hre, Nat.sub_self, pow_zero])
      refine ⟨rfl, by show t.round = k; rw [hround, hre], p', hp'mem, ?_⟩
      show (((cur.set j { mj with winner := Slot.val p' }).map (fun m => m.winner)).filter
        (fun w => w.isNotNull)).headI = Slot.val p'
      rw [hwfull2, hj0, ha]
      rfl

theorem playRound_fields (gen : Nat → String) (tid : String) (r : Nat) :
    ∀ (batch : List (Nat × String)) (t : Tournament) (ctr : Nat),
    (playRound gen tid r (t, ctr) batch).1.players = t.players ∧
    (playRound gen tid r (t, ctr) batch).1.id = t.id ∧
    (playRound gen tid r (t, ctr) batch).1.size = t.size := by
  intro batch
  induction batch with
  | nil => intro t ctr; exact ⟨rfl, rfl, rfl⟩
  | cons jw rest ih =>
    intro t ctr
    have h1 := reportMatchResult_fields gen ctr t (mkId tid r jw.1) jw.2
    have h2 := ih (reportMatchResult gen ctr t (mkId tid r jw.1) jw.2).1
      (reportMatchResult gen ctr t (mkId tid r jw.1) jw.2).2.1
    exact ⟨h2.1.trans h1.1, h2.2.1.trans h1.2.1, h2.2.2.trans h1.2.2⟩

theorem play_batch (gen : Nat → String) (k r : Nat) :
    ∀ (batch : List (Nat × String)) (t : Tournament) (ctr : Nat) (pend : List Nat),
    MidInv k r pend t → IdFresh t.id k →
    (batch.map Prod.fst).Perm pend → pend.Nodup →
    (∀ x ∈ pend, x < 2 ^ (k - r)) →
    (∀ jw ∈ batch, ∃ p ∈ t.players, p.storedId = jw.2) →
    pend ≠ [] →
    ((r < k → Inv k (r + 1) (playRound gen t.id r (t, ctr) batch).1) ∧
     (r = k →
       (playRound gen t.id r (t, ctr) batch).1.status = TStatus.completed ∧
       (playRound gen t.id r (t, ctr) batch).1.round = k ∧
       ∃ p ∈ t.players, (playRound gen t.id r (t, ctr) batch).1.winner = Slot.val p)) := by
  intro batch
  induction batch with
  | nil =>
    intro t ctr pend hInv hIdF hperm hnd hbound hwids hne
    exact absurd (List.perm_nil.mp hperm.symm) hne
  | cons jw rest ih =>
    intro t ctr pend hInv hIdF hperm hnd hbound hwids hne
    obtain ⟨j, w⟩ := jw
    rw [List.map_cons] at hperm
    have hjmem : j ∈ pend := hperm.subset (List.mem_cons_self _ _)
    have hwj : ∃ p ∈ t.players, p.storedId = w :=
      hwids (j, w) (List.mem_cons_self _ _)
    have hstep := report_step gen ctr t k r pend j w hInv hIdF hjmem hnd hbound hwj
    have hpermrest : (rest.map Prod.fst).Perm (pend.erase j) :=
      (hperm.trans (List.perm_cons_erase hjmem)).cons_inv
    have hunf : playRound gen t.id r (t, ctr) ((j, w) :: rest) =
        playRound gen t.id r ((reportMatchResult gen ctr t (mkId t.id r j) w).1,
          (reportMatchResult gen ctr t (mkId t.id r j) w).2.1) rest := rfl
    rw [hunf]
    by_cases hcase : pend.erase j = []
    · have hrest : rest = [] := by
        rw [hcase] at hpermrest
        exact List.map_eq_nil.mp (List.perm_nil.mp hpermrest)
      subst hrest
      have hB := hstep.2 hcase
      exact ⟨fun hrk2 => (hB.1 hrk2 : _), hB.2⟩
    · obtain ⟨hMid, -⟩ := hstep.1 hcase
      have hflds := reportMatchResult_fields gen ctr t (mkId t.id r j) w
      have hIdF2 : IdFresh (reportMatchResult gen ctr t (mkId t.id r j) w).1.id k := by
        rw [hflds.2.1]; exact hIdF
      have hwids2 : ∀ jw2 ∈ rest,
          ∃ p ∈ (reportMatchResult gen ctr t (mkId t.id r j) w).1.players,
            p.storedId = jw2.2 := by
        rw [hflds.1]
        intro jw2 h2
        exact hwids jw2 (List.mem_cons_of_mem _ h2)
      have hih := ih (reportMatchResult gen ctr t (mkId t.id r j) w).1
        (reportMatchResult gen ctr t (mkId t.id r j) w).2.1
        (pend.erase j) hMid hIdF2 hpermrest (hnd.erase j)
        (fun x hx => hbound x (List.mem_of_mem_erase hx)) hwids2 hcase
      rw [hflds.2.1, hflds.1] at hih
      exact hih

theorem play_rounds (gen : Nat → String) (k : Nat) :
    ∀ (bs : List (List (Nat × String))) (t : Tournament) (ctr : Nat) (r : Nat),
    Inv k r t → IdFresh t.id k →
    GoodBatches t.players k r bs →
    bs.length = k + 1 - r ∧
    (playRounds gen t.id (t, ctr) r bs).1.status = TStatus.completed ∧
    (playRounds gen t.id (t, ctr) r bs).1.round = k ∧
    ∃ p ∈ t.players, (playRounds gen t.id (t, ctr) r bs).1.winner = Slot.val p := by
  intro bs
  induction bs with
  | nil =>
    intro t ctr r hInv hIdF hGB
    obtain ⟨-, -, -, hrk, -, -⟩ := hInv
    have hr : r = k + 1 := hGB
    rw [hr] at hrk
    exact absurd hrk (Nat.not_succ_le_self k)
  | cons b bs ih =>
    intro t ctr r hInv hIdF hGB
    have hGBx : r ≤ k ∧ (b.map Prod.fst).Perm (List.range (2 ^ (k - r))) ∧
        (∀ jw ∈ b, ∃ p ∈ t.players, p.storedId = jw.2) ∧
        GoodBatches t.players k (r + 1) bs := hGB
    obtain ⟨hrk, hperm, hwids, hGBrest⟩ := hGBx
    have hne : List.range (2 ^ (k - r)) ≠ [] := by
      intro h
      rw [List.range_eq_nil] at h
      exact absurd h (Nat.pos_iff_ne_zero.mp (pow_pos (by norm_num) _))
    have hPB := play_batch gen k r b t ctr (List.range (2 ^ (k - r))) hInv hIdF hperm
      (List.nodup_range _) (fun x hx => List.mem_range.mp hx) hwids hne
    have hunf : playRounds gen t.id (t, ctr) r (b :: bs) =
        playRounds gen t.id (playRound gen t.id r (t, ctr) b) (r + 1) bs := rfl
    rw [hunf]
    by_cases hrk2 : r = k
    · cases bs with
      | nil =>
        have hB := hPB.2 hrk2
        refine ⟨?_, hB.1, hB.2.1, hB.2.2⟩
        simp only [List.length_cons, List.length_nil]
        omega
      | cons b2 bs2 =>
        obtain ⟨hle, -, -, -⟩ := (hGBrest : r + 1 ≤ k ∧
          (b2.map Prod.fst).Perm (List.range (2 ^ (k - (r + 1)))) ∧
          (∀ jw ∈ b2, ∃ p ∈ t.players, p.storedId = jw.2) ∧
          GoodBatches t.players k (r + 1 + 1) bs2)
        exact absurd hle (by omega)
    · have hlt : r < k := Nat.lt_of_le_of_ne hrk hrk2
      have hInv2 := hPB.1 hlt
      have hflds := playRound_fields gen t.id r b t ctr
      have hIdF2 : IdFresh (playRound gen t.id r (t, ctr) b).1.id k := by
        rw [hflds.2.1]; exact hIdF
      have hGB2 : GoodBatches (playRound gen t.id r (t, ctr) b).1.players k (r + 1) bs := by
        rw [hflds.1]; exact hGBrest
      have hih := ih (playRound gen t.id r (t, ctr) b).1
        (playRound gen t.id r (t, ctr) b).2 (r + 1) hInv2 hIdF2 hGB2
      rw [hflds.2.1, hflds.1] at hih
      refine ⟨?_, hih.2.1, hih.2.2.1, hih.2.2.2⟩
      have hl := hih.1
      simp only [List.length_cons]
      omega

/-- C3: For an active tournament of size `2 ^ k`, `advanceRound` leaves the
tournament unchanged (emitting only the progress update) while some match of
the current round lacks a winner; once every current-round match has a winner
it transitions to `completed` recording the sole winner exactly when the
winner count is 1 and the current round has reached `k`, and otherwise
increments the round and appends matches pairing the winners in match order
`(0,1),(2,3),…`; and, for `k ≥ 1`, from the start of round 1 every
round-by-round reporting schedule in which each pending match is eventually
reported once, in any order within each round, with a participant as claimed
winner, completes the bracket after exactly `k` rounds with a participant as
tournament winner.  (The spec's unqualified "exactly `k` rounds" fails at
`k = 0`: a size-1 bracket starts in round 1 and completes after one round,
not zero.) -/
theorem C3_advance_and_bracket_completion :
    (∀ (gen : Nat → String) (ctr : Nat) (t : Tournament) (m : TMatch),
      m ∈ t.matches → m.round = t.round → m.winner = Slot.null →
      advanceRound gen ctr t = (t, ctr, [Effect.tournamentUpdate t.id])) ∧
    (∀ (gen : Nat → String) (ctr : Nat) (t : Tournament) (k : Nat)
      (cur : List TMatch) (winners : List (Slot TPlayer)),
      cur = t.matches.filter (fun m => m.round == t.round) →
      winners = (cur.map (fun m => m.winner)).filter (fun w => w.isNotNull) →
      t.size = 2 ^ k → t.status = TStatus.active →
      (∀ m ∈ cur, ∃ p, m.winner = Slot.val p) →
      ((advanceRound gen ctr t).1.status = TStatus.completed ↔
        (cur.length = 1 ∧ k ≤ t.round)) ∧
      (cur.length = 1 ∧ k ≤ t.round →
        advanceRound gen ctr t =
          ({ t with status := TStatus.completed, winner := winners.headI },
            ctr, [Effect.tournamentUpdate t.id, Effect.scheduleCleanup t.id])) ∧
      (¬(cur.length = 1 ∧ k ≤ t.round) →
        ((advanceRound gen ctr t).1.round = t.round + 1 ∧
         (advanceRound gen ctr t).1.status = TStatus.active ∧
         (advanceRound gen ctr t).1.matches.map MatchCore =
           t.matches.map MatchCore ++
             (List.range ((winners.length + 1) / 2)).map (fun j =>
               (mkId t.id (t.round + 1) j, t.round + 1,
                 jsIndexS winners (2 * j),
                 if 2 * j + 1 < winners.length then jsIndexS winners (2 * j + 1)
                 else Slot.null,
                 Slot.null))))) ∧
    (∀ (gen : Nat → String) (ctr : Nat) (t : Tournament) (k : Nat)
      (bs : List (List (Nat × String))),
      1 ≤ k → Inv k 1 t → IdFresh t.id k →
      GoodBatches t.players k 1 bs →
      bs.length = k ∧
      (playRounds gen t.id (t, ctr) 1 bs).1.status = TStatus.completed ∧
      (playRounds gen t.id (t, ctr) 1 bs).1.round = k ∧
      ∃ p ∈ t.players, (playRounds gen t.id (t, ctr) 1 bs).1.winner = Slot.val p) := by
  refine ⟨advanceRound_stall, ?_, ?_⟩
  · intro gen ctr t k cur winners hcur hwin hsz hact hwon
    obtain ⟨h1, h2, h3⟩ := advanceRound_all_won gen ctr t k cur winners hcur hwin hsz hact hwon
    exact ⟨h1, h2, fun hn => ⟨(h3 hn).1, (h3 hn).2.1, (h3 hn).2.2.2.2.2⟩⟩
  · intro gen ctr t k bs h1k hInv hIdF hGB
    have H := play_rounds gen k bs t ctr 1 hInv hIdF hGB
    refine ⟨?_, H.2.1, H.2.2.1, H.2.2.2⟩
    have hl := H.1
    omega

/-- C3 counterexample to the unqualified "exactly `k` rounds": the size-`2 ^ 0`
tournament `demoT1` starts active in round 1 (so it is not completed after 0
rounds), and reporting its single round-1 match completes it — after one
round, not zero. -/
theorem C3_size_one_completes_in_one_round :
    demoT1.size = 2 ^ 0 ∧ demoT1.status = TStatus.active ∧ demoT1.round = 1 ∧
    (reportMatchResult gen0 1 demoT1 "S_r1_m0" "sidA").1.status = TStatus.completed ∧
    (reportMatchResult gen0 1 demoT1 "S_r1_m0" "sidA").1.round = 1 := by
  decide

theorem demoT2_bracket_run :
    (playRounds gen0 "T" (demoT2, 1) 1 [[(0, "sidA")]]).1.status = TStatus.completed ∧
    (playRounds gen0 "T" (demoT2, 1) 1 [[(0, "sidA")]]).1.winner = Slot.val pA := by
  decide
end Whot
